import Mathlib

/-! # d18-notebook: pagination, session token and content service

A shallow embedding of `src/server` (utils.go, obj.go, logic.go, store.go).

Conventions of the embedding

* Go `int` is the 64-bit two's-complement integer of the usual build targets:
  an `Int` kept in `[-2^63, 2^63)`, every arithmetic result reduced by `wrapInt`.
* Go `uint32` is a `Nat` below `2^32`; the conversion `uint32(x)` is `toUint32`.
* Go `string` is a Lean `String`, read as its sequence of runes.
* Calls to the logger have no effect on the results and are left out.
-/

namespace Notebook

/-! ## Machine integers -/

/-- Reduction of a mathematical integer to the 64-bit `int` range (two's complement). -/
def wrapInt (x : Int) : Int := (x + 9223372036854775808) % 18446744073709551616 - 9223372036854775808

/-- The values a Go `int` can hold. -/
def isInt (x : Int) : Prop := -9223372036854775808 ≤ x ∧ x < 9223372036854775808

instance (x : Int) : Decidable (isInt x) := by unfold isInt; infer_instance

/-- Go `a + b` on `int`. -/
def intAdd (a b : Int) : Int := wrapInt (a + b)

/-- Go `a - b` on `int`. -/
def intSub (a b : Int) : Int := wrapInt (a - b)

/-- Go `a / b` on `int`: the quotient truncated toward zero. -/
def intDiv (a b : Int) : Int := wrapInt (Int.tdiv a b)

/-- Go conversion `uint32(x)` of an `int`. -/
def toUint32 (x : Int) : Nat := (x % 4294967296).toNat

/-- Reduction of a natural number to the `uint32` range. -/
def wrapU32 (n : Nat) : Nat := n % 4294967296

/-! ## utils.go -/

/-- Go `min` of utils.go. -/
def min (n1 n2 : Int) : Int := if n1 < n2 then n1 else n2

/-- Go `max` of utils.go. -/
def max (n1 n2 : Int) : Int := if n1 > n2 then n1 else n2

/-! ## obj.go -/

/-- The page window returned to the client; all four fields are `uint32`. -/
structure pageObj where
  Left : Nat
  Right : Nat
  Cur : Nat
  Total : Nat
  deriving DecidableEq, Repr

/-! ## logic.go: calcPage -/

/-- The function `calcPage` of logic.go; `winSize` is the value read by
`viper.GetInt("pagination.win_size")`. -/
def calcPage (winSize : Int) (curPage pageSize totalCount : Int) : pageObj :=
  if pageSize ≤ 0 ∨ curPage ≤ 0 ∨ totalCount ≤ 0 then
    { Left := 0, Right := 0, Cur := 0, Total := 0 }
  else
    let totalPage := intDiv (intSub (intAdd totalCount pageSize) 1) pageSize
    if curPage > totalPage then
      { Left := 0, Right := 0, Cur := 0, Total := 0 }
    else
      let dist := intDiv winSize 2
      let left := intSub curPage dist
      let right := intAdd curPage dist
      if left ≤ 0 then
        { Left := toUint32 1, Right := toUint32 (min winSize totalPage),
          Cur := toUint32 curPage, Total := toUint32 totalPage }
      else if right > totalPage then
        { Left := toUint32 (max (intAdd (intSub totalPage winSize) 1) 1), Right := toUint32 totalPage,
          Cur := toUint32 curPage, Total := toUint32 totalPage }
      else
        { Left := toUint32 left, Right := toUint32 right,
          Cur := toUint32 curPage, Total := toUint32 totalPage }

/-- The zero page. -/
def zeroPage : pageObj := { Left := 0, Right := 0, Cur := 0, Total := 0 }

/-- The number of pages the specification speaks of: `ceil(totalCount / pageSize)`,
computed over the rationals. -/
def totalPages (totalCount pageSize : Int) : Int := ⌈(totalCount : ℚ) / (pageSize : ℚ)⌉

/-- The page count as `calcPage` computes it. -/
def codeTotalPage (pageSize totalCount : Int) : Int :=
  intDiv (intSub (intAdd totalCount pageSize) 1) pageSize

/-- The window of the specification over mathematical integers: the candidate
`[curPage - half, curPage + half]` clamped to `[1, totalPage]`. -/
def windowOf (winSize curPage totalPage : Int) : Int × Int :=
  if curPage - winSize / 2 ≤ 0 then (1, Min.min winSize totalPage)
  else if curPage + winSize / 2 > totalPage then (Max.max (totalPage - winSize + 1) 1, totalPage)
  else (curPage - winSize / 2, curPage + winSize / 2)

/-! ## Go values shared by the embedding -/

/-- A Go `error`: `none` is `nil`, `some msg` an error with that message. -/
abbrev goError := Option String

deriving instance DecidableEq for Except

/-- The sentinel `noteNotExistsErr` of constant.go. -/
def noteNotExistsErr : String := "notes does not exists"

/-- The constant `tokenKey` of constant.go. -/
def tokenKey : String := "notebook:token"

/-- The constant `tokenExpire` of constant.go, in seconds. -/
def tokenExpire : Int := 3600 * 24 * 3

/-- The configuration values the code reads through viper. -/
structure Config where
  note_digest_length : Nat
  pagination_page_size : Nat
  pagination_win_size : Int
  note_default_author : String
  auth_hashed_password : String

/-! ## obj.go: notes and tags -/

/-- The struct `tagObj`. -/
structure tagObj where
  ID : Nat
  Name : String
  Tagged : Nat
  deriving DecidableEq, Repr

/-- The struct `noteObj`. -/
structure noteObj where
  ID : Nat
  Title : String
  Author : String
  Content : String
  PlainText : String
  Private : Bool
  Words : Nat
  Tags : List tagObj
  CreatedAt : String
  UpdateAt : String
  deriving DecidableEq, Repr

/-- The library struct `sql.NullInt64`. -/
structure sqlNullInt64 where
  Int64 : Int
  Valid : Bool
  deriving DecidableEq, Repr

/-- The library struct `sql.NullString`; the field `Str` is Go's `String`. -/
structure sqlNullString where
  Str : String
  Valid : Bool
  deriving DecidableEq, Repr

/-- The struct `noteSqlObj`: one joined row as `rows.Scan` stores it. -/
structure noteSqlObj where
  ID : Nat
  Title : String
  Author : String
  Content : String
  PlainText : String
  Auth : Bool
  Words : Nat
  CreatedAt : String
  UpdatedAt : String
  TagID : sqlNullInt64
  TagName : sqlNullString
  deriving DecidableEq, Repr

/-! ## The cache client `RDS`

The Redis server is an explicit state: the stored entries and, while the server cannot be
reached, the error every command reports. Expiry by time is not part of the state. -/

/-- One stored key with its value and time to live (nanoseconds). -/
structure redisEntry where
  key : String
  val : String
  ttl : Int
  deriving DecidableEq, Repr

/-- The state behind the client `RDS`. -/
structure redisObj where
  entries : List redisEntry
  fault : goError
  deriving DecidableEq, Repr

/-- The error `redis.Nil` reported by `Get` for a key that is not stored. -/
def redisNil : String := "redis: nil"

/-- The command `RDS.Get(key).Result()`. -/
def redisObj.Get (r : redisObj) (key : String) : Except String String :=
  match r.fault with
  | some e => .error e
  | none =>
    match r.entries.find? (fun e => e.key == key) with
    | some e => .ok e.val
    | none => .error redisNil

/-- The command `RDS.Set(key, val, ttl).Err()` with the state it leaves. -/
def redisObj.Set (r : redisObj) (key val : String) (ttl : Int) : goError × redisObj :=
  match r.fault with
  | some e => (some e, r)
  | none =>
    (none, { r with entries :=
      { key := key, val := val, ttl := ttl } :: r.entries.filter (fun e => !(e.key == key)) })

/-- The command `RDS.Del(key).Err()` with the state it leaves. -/
def redisObj.Del (r : redisObj) (key : String) : goError × redisObj :=
  match r.fault with
  | some e => (some e, r)
  | none => (none, { r with entries := r.entries.filter (fun e => !(e.key == key)) })

/-! ## The database handle `DB`

The database is an oracle answering each statement from the history of the calls made so
far; the history is the state the program threads. A row set is given by what each
`rows.Next()` and `rows.Scan` pair yields and by the final `rows.Err()`. -/

/-- The two implementations of the interface `cursorObj`: the handle `DB` and a transaction. -/
inductive cursorObj where
  | DB
  | Tx
  deriving DecidableEq, Repr

/-- An argument bound to a statement. -/
inductive sqlArg where
  | str (s : String)
  | u32 (n : Nat)
  | bool (b : Bool)
  deriving DecidableEq, Repr

/-- A call received by the database. -/
inductive dbCall where
  | Begin
  | Commit
  | Rollback
  | Exec (cursor : cursorObj) (sql : String) (args : List sqlArg)
  | Query (cursor : cursorObj) (sql : String) (args : List sqlArg)
  | QueryRow (cursor : cursorObj) (sql : String) (args : List sqlArg)
  deriving DecidableEq, Repr

/-- The library interface `sql.Result`: what its two methods return. -/
structure sqlResult where
  LastInsertId : Int × goError
  RowsAffected : Int × goError

/-- The library type `sql.Rows` read with destination type `α`: the outcome of each
`Next` and `Scan` in turn, and the error `Err()` reports after the last row. -/
structure sqlRows (α : Type) where
  scanned : List (Except String α)
  Err : goError

/-- The answers of the database, each a function of the calls made before. -/
structure sqlDriver where
  Begin : List dbCall → goError
  Commit : List dbCall → goError
  Rollback : List dbCall → goError
  Exec : List dbCall → cursorObj → String → List sqlArg → Except String sqlResult
  QueryNotes : List dbCall → cursorObj → String → List sqlArg → Except String (sqlRows noteSqlObj)
  QueryTags : List dbCall → cursorObj → String → List sqlArg → Except String (sqlRows (Nat × String))
  QueryRowCount : List dbCall → cursorObj → String → List sqlArg → Except String Nat

/-- What the program runs in: configuration, the external libraries and the runtime.
`bcryptCompare hash password` is `bcrypt.CompareHashAndPassword`; `goquery content` is the
text of the parsed document or the parse error; `runeSlack n` is the spare capacity the
runtime gives a rune slice of length `n`. -/
structure goEnv where
  cfg : Config
  drv : sqlDriver
  bcryptCompare : String → String → goError
  goquery : String → Except String String
  runeSlack : Nat → Nat

/-- The mutable world of the server: the calls the database has received, the cache, and
the number of `cleanUnusedTags` goroutines started. -/
structure World where
  DB : List dbCall
  RDS : redisObj
  sweeps : Nat

/-- The value `viper.GetUint32` returns for a configured number. -/
def viperGetUint32 (n : Nat) : Nat := wrapU32 n

/-- The value `viper.GetInt` returns for a configured number. -/
def viperGetInt (n : Int) : Int := wrapInt n

/-! ## store.go -/

/-- The function `withTransaction`; `tf` receives the transaction as its cursor. The
deferred function rolls back when the variable `err` of the function body is set, which
the shadowed `err` of the commit branch does not do. -/
def withTransaction {α : Type} (drv : sqlDriver)
    (tf : cursorObj → List dbCall → (α × goError) × List dbCall)
    (h : List dbCall) : (Option α × goError) × List dbCall :=
  match drv.Begin h with
  | some err => ((none, some err), h ++ [dbCall.Begin])
  | none =>
    let (r, h2) := tf cursorObj.Tx (h ++ [dbCall.Begin])
    match r.2 with
    | some err => ((none, some err), h2 ++ [dbCall.Rollback])
    | none =>
      match drv.Commit h2 with
      | some err => ((none, some err), h2 ++ [dbCall.Commit])
      | none => ((some r.1, none), h2 ++ [dbCall.Commit])

/-- The statement text built by `insertTags`. -/
def insertTagsSql (ignoreDuplicated : Bool) (names : List String) : String :=
  if ignoreDuplicated then
    "insert ignore into notebook.tag (name) values " ++ String.intercalate "," (names.map fun _ => "(?)")
  else
    "insert into notebook.tag (name) values " ++ String.intercalate "," (names.map fun _ => "(?)")

/-- The function `insertTags`. -/
def insertTags (drv : sqlDriver) (cursor : cursorObj) (ignoreDuplicated : Bool)
    (names : List String) (h : List dbCall) : (Nat × goError) × List dbCall :=
  let sqlStr := insertTagsSql ignoreDuplicated names
  let args := names.map sqlArg.str
  let h1 := h ++ [dbCall.Exec cursor sqlStr args]
  match drv.Exec h cursor sqlStr args with
  | .error err => ((0, some err), h1)
  | .ok result =>
    match result.LastInsertId with
    | (_, some err) => ((0, some err), h1)
    | (tagID, none) => ((toUint32 tagID, none), h1)

/-- The row loop of `selectTagsByName`: append a tag per scanned row, stop at the first
scan error. -/
def scanTags : List (Except String (Nat × String)) → List tagObj → List tagObj × goError
  | [], tagsIns => (tagsIns, none)
  | .error err :: _, tagsIns => (tagsIns, some err)
  | .ok (id, name) :: rest, tagsIns => scanTags rest (tagsIns ++ [{ ID := id, Name := name, Tagged := 0 }])

/-- The statement text built by `selectTagsByName`. -/
def selectTagsByNameSql (forUpdate : Bool) (names : List String) : String :=
  if forUpdate then
    "select id, name from notebook.tag where name in (" ++ String.intercalate "," (names.map fun _ => "?") ++ ") for update"
  else
    "select id, name from notebook.tag where name in (" ++ String.intercalate "," (names.map fun _ => "?") ++ ")"

/-- The function `selectTagsByName`; closing the rows has no effect on the result. -/
def selectTagsByName (drv : sqlDriver) (cursor : cursorObj) (closeRows : Bool) (forUpdate : Bool)
    (names : List String) (h : List dbCall) : (List tagObj × goError) × List dbCall :=
  let _ := closeRows
  let sqlStr := selectTagsByNameSql forUpdate names
  let args := names.map sqlArg.str
  let h1 := h ++ [dbCall.Query cursor sqlStr args]
  match drv.QueryTags h cursor sqlStr args with
  | .error err => (([], some err), h1)
  | .ok rows =>
    match scanTags rows.scanned [] with
    | (tagsIns, some err) => ((tagsIns, some err), h1)
    | (tagsIns, none) =>
      match rows.Err with
      | some err => ((tagsIns, some err), h1)
      | none => ((tagsIns, none), h1)

/-- The statement text of `insertNote`. -/
def insertNoteSql : String := "insert into notebook.note \n  \t\t\t\t  \t  (title, author, content, plain_text, words, private) \n  \t\t\t\t\t  values \n  \t\t\t\t  \t  (?, ?, ?, ?, ?, ?)"

/-- The function `insertNote`. -/
def insertNote (drv : sqlDriver) (cursor : cursorObj) (title author content plainText : String)
    (priv : Bool) (words : Nat) (h : List dbCall) : (Nat × goError) × List dbCall :=
  let args := [sqlArg.str title, sqlArg.str author, sqlArg.str content, sqlArg.str plainText,
    sqlArg.u32 words, sqlArg.bool priv]
  let h1 := h ++ [dbCall.Exec cursor insertNoteSql args]
  match drv.Exec h cursor insertNoteSql args with
  | .error err => ((0, some err), h1)
  | .ok result =>
    match result.LastInsertId with
    | (_, some err) => ((0, some err), h1)
    | (noteID, none) => ((toUint32 noteID, none), h1)

/-- The statement text of `selectNoteByNoteID`. -/
def selectNoteByNoteIDSql : String := "select note.id, title, author, content, plain_text, words, private, \n\t\t\t\t\tnote.created_at, note.update_at, note_tag.tag_id, note_tag.tag_name\n\t\t\t\t\tfrom notebook.note\n\t\t\t\t\tleft outer join notebook.note_tag note_tag\n\t\t\t\t\ton note.id = note_tag.note_id\n\t\t\t\t\twhere note.id = ?"

/-- The note built from the first row of a note. -/
def newNote (r : noteSqlObj) : noteObj :=
  { ID := r.ID, Title := r.Title, Author := r.Author, Content := r.Content,
    PlainText := r.PlainText, Private := r.Auth, Words := r.Words,
    CreatedAt := r.CreatedAt, UpdateAt := r.UpdatedAt, Tags := [] }

/-- The tag a row carries: `tagObj{ID: uint32(TagID.Int64), Name: TagName.String}`. -/
def rowTag (r : noteSqlObj) : tagObj :=
  { ID := toUint32 r.TagID.Int64, Name := r.TagName.Str, Tagged := 0 }

/-- The row loop of `selectNoteByNoteID`: the first row makes the note, every row
appends its tag columns; a scan error ends the loop. -/
def scanNote : List (Except String noteSqlObj) → Option noteObj → Option noteObj × goError
  | [], noteInsPtr => (noteInsPtr, none)
  | .error err :: _, _ => (none, some err)
  | .ok r :: rest, noteInsPtr =>
    let n := match noteInsPtr with
      | none => newNote r
      | some n => n
    scanNote rest (some { n with Tags := n.Tags ++ [rowTag r] })

/-- The function `selectNoteByNoteID`. -/
def selectNoteByNoteID (drv : sqlDriver) (cursor : cursorObj) (noteID : Nat) (closeRows : Bool)
    (h : List dbCall) : (Option noteObj × goError) × List dbCall :=
  let _ := closeRows
  let h1 := h ++ [dbCall.Query cursor selectNoteByNoteIDSql [sqlArg.u32 noteID]]
  match drv.QueryNotes h cursor selectNoteByNoteIDSql [sqlArg.u32 noteID] with
  | .error err => ((none, some err), h1)
  | .ok rows =>
    match scanNote rows.scanned none with
    | (_, some err) => ((none, some err), h1)
    | (noteInsPtr, none) =>
      match rows.Err with
      | some err => ((none, some err), h1)
      | none => ((noteInsPtr, none), h1)

/-- The statement text of `selectNotesByTagID` for a tag filter. -/
def selectNotesByTagSql (sqlSort : String) : String :=
  "select note.id, title, author, content, plain_text, words, private, \n       \t\t\tnote.created_at, note.update_at,\n\t\t\t\t\ttag_id, tag_name from (\n\t\t\t\t\tselect note.id, title, author, content, plain_text, words, private, \n       \t\t\tnote.created_at, note.update_at\n\t\t\t\t\tfrom notebook.note note\n\t\t\t\t\tinner join notebook.note_tag note_tag\n\t\t\t\t\ton note.id = note_tag.note_id\n\t\t\t\t\tand note_tag.tag_id = ?\n\t\t\t\t\t" ++ sqlSort ++ "\n\t\t\t\t\tlimit ?, ?) as note\n\t\t\t\t\tinner join notebook.note_tag note_tag\n\t\t\t\t\ton note.id = note_tag.note_id\n\t\t\t\t\t"

/-- The statement text of `selectNotesByTagID` without a tag filter. -/
def selectNotesAllSql (sqlSort : String) : String :=
  "select note.id, title, author, content, plain_text, words, private, \n       \t\t\t\tnote.created_at, note.update_at,\n\t\t\t\t\t\ttag_id, tag_name from (\n\t\t\t\t\t\tselect id, title, author, content, plain_text, words, private, \n       \t\t\t\tcreated_at, update_at\n\t\t\t\t\t\tfrom notebook.note \n\t\t\t\t\t\t" ++ sqlSort ++ "\n\t\t\t\t\t\tlimit ?, ?) as note\n\t\t\t\t\t\tleft outer join notebook.note_tag note_tag\n\t\t\t\t\t\ton note.id = note_tag.note_id"

/-- One iteration of the row loop of `selectNotesByTagID` on the map `notesInsPtrMap`,
kept as an association list in insertion order with one entry per key. -/
def foldNoteRow (m : List (Nat × noteObj)) (r : noteSqlObj) : List (Nat × noteObj) :=
  let m1 := if (m.lookup r.ID).isNone then m ++ [(r.ID, newNote r)] else m
  if r.TagID.Valid then
    m1.map fun kv => if kv.1 = r.ID then (kv.1, { kv.2 with Tags := kv.2.Tags ++ [rowTag r] }) else kv
  else m1

/-- The row loop of `selectNotesByTagID`; a scan error ends it. -/
def scanNotes : List (Except String noteSqlObj) → List (Nat × noteObj) → Except String (List (Nat × noteObj))
  | [], m => .ok m
  | .error err :: _, _ => .error err
  | .ok r :: rest, m => scanNotes rest (foldNoteRow m r)

/-- Insertion of `x` at position `i` of `l` (at the end when `i` is past it). -/
def insertAt {α : Type} (x : α) (i : Nat) (l : List α) : List α := l.take i ++ x :: l.drop i

/-- The order in which `range` visits a map is not specified: `seed` picks one order,
every element being placed at the position its seed number selects. -/
def mapRange {α : Type} : List Nat → List α → List α
  | _, [] => []
  | seed, x :: xs => insertAt x (seed.headD 0 % (xs.length + 1)) (mapRange seed.tail xs)

/-- The method `Less` of `notesInsPtrSlice`, on two notes: `a.UpdateAt > b.UpdateAt`, the
order of strings being the lexicographic order of their runes. -/
def notesLess (a b : noteObj) : Bool := decide (b.UpdateAt.data < a.UpdateAt.data)

/-- The call `sort.Sort(notesInsPtrSlice(ns))`: an ordering by `Less`; the order of notes
that `Less` does not separate is the one the map iteration left. -/
def sortNotes (ns : List noteObj) : List noteObj :=
  ns.insertionSort fun a b => notesLess b a = false

/-- The function `selectNotesByTagID`; `seed` fixes the map iteration order. A failed
query returns the empty list and a nil error. -/
def selectNotesByTagID (drv : sqlDriver) (seed : List Nat) (cursor : cursorObj)
    (pageNo pageSize tagID : Nat) (autoSort closeRows : Bool)
    (h : List dbCall) : (List noteObj × goError) × List dbCall :=
  let _ := closeRows
  let sqlSort := if autoSort then "order by update_at desc" else ""
  let offset := wrapU32 (wrapU32 (pageNo + 4294967296 - 1) * pageSize)
  let sqlStr := if tagID > 0 then selectNotesByTagSql sqlSort else selectNotesAllSql sqlSort
  let args := if tagID > 0 then [sqlArg.u32 tagID, sqlArg.u32 offset, sqlArg.u32 pageSize]
    else [sqlArg.u32 offset, sqlArg.u32 pageSize]
  let h1 := h ++ [dbCall.Query cursor sqlStr args]
  match drv.QueryNotes h cursor sqlStr args with
  | .error _ => (([], none), h1)
  | .ok rows =>
    match scanNotes rows.scanned [] with
    | .error err => (([], some err), h1)
    | .ok notesInsPtrMap =>
      match rows.Err with
      | some err => (([], some err), h1)
      | none =>
        let notesInsPtr := (mapRange seed notesInsPtrMap).map Prod.snd
        ((if autoSort then sortNotes notesInsPtr else notesInsPtr, none), h1)

/-- The statement text of `selectNotesCountByTagID` for a tag. -/
def selectNotesCountByTagSql : String := "select count(distinct note.id)\n\t\t\t\t\t\tfrom notebook.note note\n\t\t\t\t\t\tinner join notebook.note_tag note_tag\n\t\t\t\t\t\ton note.id = note_tag.note_id\n\t\t\t\t\t\tand note_tag.tag_id = ?"

/-- The function `selectNotesCountByTagID`; a count outside `uint32` is a scan error. -/
def selectNotesCountByTagID (drv : sqlDriver) (cursor : cursorObj) (tagID : Nat)
    (h : List dbCall) : (Nat × goError) × List dbCall :=
  let sqlStr := if tagID ≠ 0 then selectNotesCountByTagSql else "select count(id) from notebook.note"
  let args := if tagID ≠ 0 then [sqlArg.u32 tagID] else []
  let h1 := h ++ [dbCall.QueryRow cursor sqlStr args]
  match drv.QueryRowCount h cursor sqlStr args with
  | .error err => ((0, some err), h1)
  | .ok cnt =>
    if cnt < 4294967296 then ((cnt, none), h1)
    else ((0, some "converting driver.Value type to a uint32: value out of range"), h1)

/-- The statement text of `updateNoteByNoteID`. -/
def updateNoteByNoteIDSql : String := "update notebook.note\n\t\t\t\t\tset title = ?, content = ?, plain_text = ?, words = ?, private = ?\n\t\t\t\t\twhere id = ?"

/-- The function `updateNoteByNoteID`. -/
def updateNoteByNoteID (drv : sqlDriver) (cursor : cursorObj) (noteID : Nat)
    (title content plainText : String) (words : Nat) (priv : Bool)
    (h : List dbCall) : (Nat × goError) × List dbCall :=
  let args := [sqlArg.str title, sqlArg.str content, sqlArg.str plainText, sqlArg.u32 words,
    sqlArg.bool priv, sqlArg.u32 noteID]
  let h1 := h ++ [dbCall.Exec cursor updateNoteByNoteIDSql args]
  match drv.Exec h cursor updateNoteByNoteIDSql args with
  | .error err => ((0, some err), h1)
  | .ok result =>
    match result.RowsAffected with
    | (_, some err) => ((0, some err), h1)
    | (rowsAffected, none) => ((toUint32 rowsAffected, none), h1)

/-- The function `deleteNoteByNoteID`. -/
def deleteNoteByNoteID (drv : sqlDriver) (cursor : cursorObj) (noteID : Nat)
    (h : List dbCall) : (Nat × goError) × List dbCall :=
  let sqlStr := "delete from notebook.note where id = ?"
  let h1 := h ++ [dbCall.Exec cursor sqlStr [sqlArg.u32 noteID]]
  match drv.Exec h cursor sqlStr [sqlArg.u32 noteID] with
  | .error err => ((0, some err), h1)
  | .ok result =>
    match result.RowsAffected with
    | (_, some err) => ((0, some err), h1)
    | (rowsAffected, none) => ((toUint32 rowsAffected, none), h1)

/-- The statement text built by `insertNoteTags`. -/
def insertNoteTagsSql (noteID : Nat) (tagsIns : List tagObj) : String :=
  "insert into notebook.note_tag (note_id, tag_id, tag_name) values " ++
    String.intercalate "," (tagsIns.map fun _ => "(" ++ toString noteID ++ ", ?, ?)")

/-- The function `insertNoteTags`. -/
def insertNoteTags (drv : sqlDriver) (cursor : cursorObj) (noteID : Nat) (tagsIns : List tagObj)
    (h : List dbCall) : (Nat × goError) × List dbCall :=
  let sqlStr := insertNoteTagsSql noteID tagsIns
  let args := tagsIns.flatMap fun tagIns => [sqlArg.u32 tagIns.ID, sqlArg.str tagIns.Name]
  let h1 := h ++ [dbCall.Exec cursor sqlStr args]
  match drv.Exec h cursor sqlStr args with
  | .error err => ((0, some err), h1)
  | .ok result =>
    match result.RowsAffected with
    | (_, some err) => ((0, some err), h1)
    | (rowsAffected, none) => ((toUint32 rowsAffected, none), h1)

/-- The statement text of `deleteNoteTagsByNoteID`. -/
def deleteNoteTagsByNoteIDSql : String := "delete from notebook.note_tag\n\t\t\t\t\twhere note_id = ?"

/-- The function `deleteNoteTagsByNoteID`. -/
def deleteNoteTagsByNoteID (drv : sqlDriver) (cursor : cursorObj) (noteID : Nat)
    (h : List dbCall) : (Nat × goError) × List dbCall :=
  let h1 := h ++ [dbCall.Exec cursor deleteNoteTagsByNoteIDSql [sqlArg.u32 noteID]]
  match drv.Exec h cursor deleteNoteTagsByNoteIDSql [sqlArg.u32 noteID] with
  | .error err => ((0, some err), h1)
  | .ok result =>
    match result.RowsAffected with
    | (_, some err) => ((0, some err), h1)
    | (rowsAffected, none) => ((toUint32 rowsAffected, none), h1)

/-! ## logic.go -/

/-- The function `hideNote`. -/
def hideNote (n : noteObj) : noteObj := { n with Content := "", PlainText := "" }

/-- The builtin `copy(dst, src)` on slices: the slice `dst` after the call. -/
def goCopy {α : Type} (dst src : List α) : List α := src.take dst.length ++ dst.drop src.length

/-- The function `cutNote`. The slice expression `[]rune(PlainText)[:k]` panics when `k` is
beyond the capacity of the converted slice; up to the capacity it reads the zero runes the
runtime leaves after the text. -/
def cutNote (env : goEnv) (n : noteObj) : Except String noteObj :=
  let digestLength := viperGetUint32 env.cfg.note_digest_length
  let part := List.replicate digestLength (Char.ofNat 0)
  let runes := n.PlainText.data
  let k := (min (n.Words : Int) (digestLength : Int)).toNat
  let cap := runes.length + env.runeSlack runes.length
  if k > cap then .error "runtime error: slice bounds out of range"
  else
    let src := (runes ++ List.replicate (cap - runes.length) (Char.ofNat 0)).take k
    .ok { n with PlainText := String.mk (goCopy part src), Content := "" }

/-- The predicate `unicode.IsSpace`. -/
def isSpace (c : Char) : Bool :=
  let n := c.toNat
  n = 9 || n = 10 || n = 11 || n = 12 || n = 13 || n = 32 || n = 133 || n = 160 ||
  n = 5760 || (8192 ≤ n && n ≤ 8202) || n = 8232 || n = 8233 || n = 8239 || n = 8287 || n = 12288

/-- One rune of `strings.Fields`, read from the right: the fields found so far and
whether the first of them is still open on its left. -/
def fieldsStep (c : Char) (acc : List (List Char) × Bool) : List (List Char) × Bool :=
  if isSpace c then (acc.1, false)
  else if acc.2 then
    match acc.1 with
    | f :: fs => ((c :: f) :: fs, true)
    | [] => ([[c]], true)
  else ([c] :: acc.1, true)

/-- The function `strings.Fields`: the maximal runs of runes that are not white space. -/
def stringsFields (s : String) : List String :=
  (s.data.foldr fieldsStep ([], false)).1.map String.mk

/-- The function `strings.Join`. -/
def stringsJoin (elems : List String) (sep : String) : String := String.intercalate sep elems

/-- The function `extractPlainTextFromHTML`. -/
def extractPlainTextFromHTML (env : goEnv) (content : String) : String × goError :=
  match env.goquery content with
  | .error err => ("", some err)
  | .ok plainText => (stringsJoin (stringsFields plainText) "", none)

/-- The function `getToken`. -/
def getToken (RDS : redisObj) : String × goError :=
  match RDS.Get tokenKey with
  | .error err => ("", some err)
  | .ok token => (token, none)

/-- The function `setToken`. -/
def setToken (RDS : redisObj) (val : String) : goError × redisObj :=
  RDS.Set tokenKey val (1000000000 * tokenExpire)

/-- The function `deleteToken`. -/
def deleteToken (RDS : redisObj) : goError × redisObj :=
  RDS.Del tokenKey

/-- The alphabet of `base64.StdEncoding`. -/
def base64Alphabet : List Char :=
  "ABCDEFGHIJKLMNOPQRSTUVWXYZabcdefghijklmnopqrstuvwxyz0123456789+/".data

/-- The digit of `base64.StdEncoding` for a six-bit value. -/
def base64Digit (n : Nat) : Char := base64Alphabet.getD (n % 64) (Char.ofNat 65)

/-- The function `base64.StdEncoding.EncodeToString` on a list of bytes. -/
def base64Encode : List Nat → List Char
  | [] => []
  | [a] => [base64Digit (a / 4), base64Digit (a % 4 * 16), Char.ofNat 61, Char.ofNat 61]
  | [a, b] => [base64Digit (a / 4), base64Digit (a % 4 * 16 + b / 16), base64Digit (b % 16 * 4),
      Char.ofNat 61]
  | a :: b :: c :: rest =>
    base64Digit (a / 4) :: base64Digit (a % 4 * 16 + b / 16) ::
      base64Digit (b % 16 * 4 + c / 64) :: base64Digit (c % 64) :: base64Encode rest

/-- The function `genToken`; `rnd` is what `rand.Read` does with the 32-byte buffer: an
error, or the bytes it fills the buffer with. -/
def genToken (rnd : Except String (List Nat)) : String × goError :=
  match rnd with
  | .error err => ("", some err)
  | .ok bytes =>
    let token := (List.range 32).map fun i => bytes.getD i 0 % 256
    (String.mk (base64Encode token), none)

/-- The function `auth`. -/
def auth (env : goEnv) (rnd : Except String (List Nat)) (password : String)
    (RDS : redisObj) : (String × goError) × redisObj :=
  match env.bcryptCompare env.cfg.auth_hashed_password password with
  | some err => (("", some err), RDS)
  | none =>
    match genToken rnd with
    | (_, some err) => (("", some err), RDS)
    | (token, none) =>
      match setToken RDS token with
      | (some err, RDS1) => (("", some err), RDS1)
      | (none, RDS1) => ((token, none), RDS1)

/-- The function `isAuth`. -/
def isAuth (RDS : redisObj) (token : String) : Bool :=
  if token = "" then false
  else
    match getToken RDS with
    | (_, some _) => false
    | (serverToken, none) => serverToken == token

/-- The loop of `getNotes` over the fetched notes; a panic of `cutNote` ends it. -/
def visitNotes (env : goEnv) (isAuthed : Bool) : List noteObj → Except String (List noteObj)
  | [] => .ok []
  | n :: rest =>
    if n.Private && !isAuthed then
      match visitNotes env isAuthed rest with
      | .error p => .error p
      | .ok ns => .ok (hideNote n :: ns)
    else
      match cutNote env n with
      | .error p => .error p
      | .ok n1 =>
        match visitNotes env isAuthed rest with
        | .error p => .error p
        | .ok ns => .ok (n1 :: ns)

/-- The function `getNotes`: the returned triple, or the panic message, and the world
after the call. -/
def getNotes (env : goEnv) (seed : List Nat) (pageNo tagID : Nat) (token : String)
    (w : World) : Except String (List noteObj × pageObj × goError) × World :=
  let (r, h1) := selectNotesCountByTagID env.drv cursorObj.DB tagID w.DB
  let w1 := { w with DB := h1 }
  match r.2 with
  | some err => (.ok ([], zeroPage, some err), w1)
  | none =>
    let notesCount := r.1
    let pageSize := viperGetUint32 env.cfg.pagination_page_size
    let pageIns := calcPage (viperGetInt env.cfg.pagination_win_size) (pageNo : Int) (pageSize : Int)
      (notesCount : Int)
    if pageIns.Total ≤ 0 then (.ok ([], pageIns, none), w1)
    else
      let (r2, h2) := selectNotesByTagID env.drv seed cursorObj.DB pageIns.Cur pageSize tagID true true h1
      let w2 := { w1 with DB := h2 }
      match r2.2 with
      | some err => (.ok (r2.1, pageIns, some err), w2)
      | none =>
        match visitNotes env (isAuth w2.RDS token) r2.1 with
        | .error p => (.error p, w2)
        | .ok notesInsPtr => (.ok (notesInsPtr, pageIns, none), w2)

/-- The function `getNote`. -/
def getNote (env : goEnv) (noteID : Nat) (token : String)
    (w : World) : (Option noteObj × goError) × World :=
  let (r, h1) := selectNoteByNoteID env.drv cursorObj.DB noteID true w.DB
  let w1 := { w with DB := h1 }
  match r.2 with
  | some err => ((r.1, some err), w1)
  | none =>
    match r.1 with
    | none => ((none, some noteNotExistsErr), w1)
    | some noteInsPtr =>
      if noteInsPtr.Private && !isAuth w1.RDS token then ((some (hideNote noteInsPtr), none), w1)
      else ((some noteInsPtr, none), w1)

/-- The plain text and word count a write computes from the content. -/
def plainTextAndWords (env : goEnv) (content : String) : String × Nat :=
  match extractPlainTextFromHTML env content with
  | (plainText, some _) => (plainText, 0)
  | (plainText, none) => (plainText, wrapU32 plainText.length)

/-- The transaction body of `publishNote`. -/
def publishNoteTx (env : goEnv) (title content : String) (priv : Bool) (tagsName : List String)
    (cursor : cursorObj) (h : List dbCall) : (Nat × goError) × List dbCall :=
  let (plainText, words) := plainTextAndWords env content
  let author := env.cfg.note_default_author
  let (r1, h1) := insertNote env.drv cursor title author content plainText priv words h
  match r1.2 with
  | some err => ((0, some err), h1)
  | none =>
    let noteID := r1.1
    let (r2, h2) := insertTags env.drv cursor true tagsName h1
    match r2.2 with
    | some err => ((0, some err), h2)
    | none =>
      let (r3, h3) := selectTagsByName env.drv cursor false true tagsName h2
      match r3.2 with
      | some err => ((0, some err), h3)
      | none =>
        let (r4, h4) := insertNoteTags env.drv cursor noteID r3.1 h3
        match r4.2 with
        | some err => ((0, some err), h4)
        | none => ((noteID, none), h4)

/-- The function `publishNote`. -/
def publishNote (env : goEnv) (title content : String) (priv : Bool) (tagsName : List String)
    (w : World) : (Nat × goError) × World :=
  let (r, h1) := withTransaction env.drv (publishNoteTx env title content priv tagsName) w.DB
  let w1 := { w with DB := h1 }
  match r with
  | (_, some err) => ((0, some err), w1)
  | (none, none) => ((0, none), w1)
  | (some noteID, none) => ((noteID, none), w1)

/-- The transaction body of `updateNote`. -/
def updateNoteTx (env : goEnv) (noteID : Nat) (title content : String) (priv : Bool)
    (tagsName : List String) (cursor : cursorObj) (h : List dbCall) : (Nat × goError) × List dbCall :=
  let (plainText, words) := plainTextAndWords env content
  let (r1, h1) := updateNoteByNoteID env.drv cursor noteID title content plainText words priv h
  match r1.2 with
  | some err => ((0, some err), h1)
  | none =>
    let rowsAffected := r1.1
    let (r2, h2) := deleteNoteTagsByNoteID env.drv cursor noteID h1
    match r2.2 with
    | some err => ((0, some err), h2)
    | none =>
      let (r3, h3) := insertTags env.drv cursor true tagsName h2
      match r3.2 with
      | some err => ((0, some err), h3)
      | none =>
        let (r4, h4) := selectTagsByName env.drv cursor false true tagsName h3
        match r4.2 with
        | some err => ((0, some err), h4)
        | none =>
          let (r5, h5) := insertNoteTags env.drv cursor noteID r4.1 h4
          match r5.2 with
          | some err => ((0, some err), h5)
          | none => ((rowsAffected, none), h5)

/-- The function `updateNote`; on success one `cleanUnusedTags` goroutine is started. -/
def updateNote (env : goEnv) (noteID : Nat) (title content : String) (priv : Bool)
    (tagsName : List String) (w : World) : goError × World :=
  let (r, h1) := withTransaction env.drv (updateNoteTx env noteID title content priv tagsName) w.DB
  let w1 := { w with DB := h1 }
  match r.2 with
  | some err => (some err, w1)
  | none => (none, { w1 with sweeps := w1.sweeps + 1 })

/-- The transaction body of `deleteNote`. -/
def deleteNoteTx (env : goEnv) (noteID : Nat) (cursor : cursorObj)
    (h : List dbCall) : (Nat × goError) × List dbCall :=
  let (r1, h1) := deleteNoteByNoteID env.drv cursor noteID h
  match r1.2 with
  | some err => ((0, some err), h1)
  | none =>
    let rowsAffected := r1.1
    if rowsAffected ≤ 0 then ((0, some noteNotExistsErr), h1)
    else
      let (r2, h2) := deleteNoteTagsByNoteID env.drv cursor noteID h1
      match r2.2 with
      | some err => ((0, some err), h2)
      | none => ((rowsAffected, none), h2)

/-- The function `deleteNote`; on success one `cleanUnusedTags` goroutine is started. -/
def deleteNote (env : goEnv) (noteID : Nat) (w : World) : goError × World :=
  let (r, h1) := withTransaction env.drv (deleteNoteTx env noteID) w.DB
  let w1 := { w with DB := h1 }
  match r.2 with
  | some err => (some err, w1)
  | none => (none, { w1 with sweeps := w1.sweeps + 1 })

/-! ## Reachable cache states -/

/-- The cache states the server reaches from an empty cache by calls of `auth` and of
`deleteToken` (logout), whatever they return. -/
inductive Reachable (env : goEnv) : redisObj → Prop where
  | init (fault : goError) : Reachable env { entries := [], fault := fault }
  | auth (rnd : Except String (List Nat)) (password : String) (r : redisObj) :
      Reachable env r → Reachable env (auth env rnd password r).2
  | logout (r : redisObj) : Reachable env r → Reachable env (deleteToken r).2

/-! ## A concrete environment for closed instances -/

/-- Three joined rows: note 1 with the tags 3 and 4, and the private note 2 without a tag. -/
def demoRows : List (Except String noteSqlObj) :=
  [ .ok { ID := 1, Title := "a", Author := "me", Content := "<p>hello</p>", PlainText := "hello",
          Auth := false, Words := 5, CreatedAt := "2020", UpdatedAt := "2020",
          TagID := ⟨3, true⟩, TagName := ⟨"go", true⟩ },
    .ok { ID := 2, Title := "b", Author := "me", Content := "<p>secret</p>", PlainText := "secret",
          Auth := true, Words := 6, CreatedAt := "2021", UpdatedAt := "2021",
          TagID := ⟨0, false⟩, TagName := ⟨"", false⟩ },
    .ok { ID := 1, Title := "a", Author := "me", Content := "<p>hello</p>", PlainText := "hello",
          Auth := false, Words := 5, CreatedAt := "2020", UpdatedAt := "2020",
          TagID := ⟨4, true⟩, TagName := ⟨"lean", true⟩ } ]

/-- The rows of `demoRows` a note query returns: those of the note asked for when the
statement has the note id as its only argument, all of them otherwise. -/
def demoQueryNotes (args : List sqlArg) : List (Except String noteSqlObj) :=
  match args with
  | [sqlArg.u32 noteID] =>
    demoRows.filter fun r =>
      match r with
      | .ok x => x.ID == noteID
      | .error _ => true
  | _ => demoRows

/-- A database that accepts every statement, counts two notes and answers the note
queries from `demoRows`. -/
def demoDrv : sqlDriver :=
  { Begin := fun _ => none, Commit := fun _ => none, Rollback := fun _ => none,
    Exec := fun _ _ _ _ => .ok { LastInsertId := (7, none), RowsAffected := (1, none) },
    QueryNotes := fun _ _ _ args => .ok { scanned := demoQueryNotes args, Err := none },
    QueryTags := fun _ _ _ _ => .ok { scanned := [.ok (3, "go")], Err := none },
    QueryRowCount := fun _ _ _ _ => .ok 2 }

/-- An environment with the password `pw`, an extractor that fails on the content `<` and
returns every other content unchanged, and a runtime without spare slice capacity. -/
def demoEnv : goEnv :=
  { cfg :=
      { note_digest_length := 4
        pagination_page_size := 10
        pagination_win_size := 5
        note_default_author := "me"
        auth_hashed_password := "h" },
    drv := demoDrv,
    bcryptCompare := fun _ p => if p = "pw" then none else some "mismatch",
    goquery := fun s => if s = "<" then .error "malformed" else .ok s,
    runeSlack := fun _ => 0 }

/-- The cache without entries, reachable. -/
def emptyCache : redisObj := { entries := [], fault := none }

/-- The cache holding the token `val` with the configured time to live. -/
def tokenCache (val : String) : redisObj :=
  { entries := [⟨tokenKey, val, 259200000000000⟩], fault := none }

/-- A text of `2^32` runes `a`. -/
def bigText : String := String.mk (List.replicate 4294967296 (Char.ofNat 97))

/-- The environment `env` with an extractor that always succeeds with the empty text. -/
def withEmptyText (env : goEnv) : goEnv := { env with goquery := fun _ => Except.ok "" }

/-- The world at start: no call made, an empty cache, no goroutine started. -/
def startWorld : World := { DB := [], RDS := emptyCache, sweeps := 0 }

/-- The list `getNotes` returns for page 1 of `demoEnv` to a visitor without a token. -/
def demoNotes : List noteObj :=
  [ { ID := 2, Title := "b", Author := "me", Content := "", PlainText := "", Private := true,
      Words := 6, Tags := [], CreatedAt := "2021", UpdateAt := "2021" },
    { ID := 1, Title := "a", Author := "me", Content := "", PlainText := "hell", Private := false,
      Words := 5, Tags := [⟨3, "go", 0⟩, ⟨4, "lean", 0⟩], CreatedAt := "2020", UpdateAt := "2020" } ]

/-! ## Instances for the listing of notes -/

/-- The environment `demoEnv` with a digest length of 8 runes. -/
def digestEnv : goEnv :=
  { demoEnv with cfg := { demoEnv.cfg with note_digest_length := 8 } }

/-- The digest `cutNote` leaves for the text `hello` and a digest length of 8: the five
runes of the text followed by three zero runes. -/
def paddedDigest : String :=
  String.mk [Char.ofNat 104, Char.ofNat 101, Char.ofNat 108, Char.ofNat 108, Char.ofNat 111,
    Char.ofNat 0, Char.ofNat 0, Char.ofNat 0]

/-- The stored note 1 of `demoRows` as `getNotes` returns it with `digestEnv`. -/
def paddedNote : noteObj :=
  { ID := 1, Title := "a", Author := "me", Content := "", PlainText := paddedDigest,
    Private := false, Words := 5, Tags := [⟨3, "go", 0⟩, ⟨4, "lean", 0⟩], CreatedAt := "2020",
    UpdateAt := "2020" }

/-- The digest the specification asks for: the first `digestLength` runes of the text. -/
def digestOf (digestLength : Nat) (plainText : String) : String :=
  String.mk (plainText.data.take digestLength)

/-- The list `getNotes` returns for page 1 of `digestEnv` to a visitor without a token: the
redacted private note 2 and the padded digest of note 1. -/
def paddedNotes : List noteObj :=
  [ { ID := 2, Title := "b", Author := "me", Content := "", PlainText := "", Private := true,
      Words := 6, Tags := [], CreatedAt := "2021", UpdateAt := "2021" },
    paddedNote ]

/-- What the loop of `getNotes` does to one fetched note whose stored word count is its
number of runes: redaction for a private note without a valid token, else the digest of
`cutNote`, padded with zero runes to the digest length. -/
def listView (env : goEnv) (isAuthed : Bool) (n : noteObj) : noteObj :=
  if n.Private && !isAuthed then { n with Content := "", PlainText := "" }
  else { n with
    PlainText := String.mk (n.PlainText.data.take (viperGetUint32 env.cfg.note_digest_length) ++
      List.replicate (viperGetUint32 env.cfg.note_digest_length - n.PlainText.length) (Char.ofNat 0)),
    Content := "" }

/-! ## The transaction state of the store

What the calls received so far have done to the store: statements sent through `DB` take
effect at once, statements sent through a transaction are pending until `Commit` makes them
take effect, and `Rollback` drops them, whatever the call reports: what is not committed
never takes effect. Queries change nothing. -/

/-- The statements that have taken effect and those pending in the open transaction. -/
structure txState where
  applied : List dbCall
  pending : Option (List dbCall)
  deriving DecidableEq, Repr

/-- The effect of one call on the transaction state. -/
def txStep (s : txState) (c : dbCall) : txState :=
  match c with
  | .Begin => { s with pending := some [] }
  | .Commit =>
    match s.pending with
    | some p => { applied := s.applied ++ p, pending := none }
    | none => s
  | .Rollback => { s with pending := none }
  | .Exec .DB sql args => { s with applied := s.applied ++ [dbCall.Exec cursorObj.DB sql args] }
  | .Exec .Tx sql args =>
    match s.pending with
    | some p => { s with pending := some (p ++ [dbCall.Exec cursorObj.Tx sql args]) }
    | none => s
  | .Query _ _ _ => s
  | .QueryRow _ _ _ => s

/-- The transaction state after a history of calls. -/
def txStateOf (h : List dbCall) : txState := h.foldl txStep { applied := [], pending := none }

/-- A statement or query sent through the cursor of the transaction. -/
def isBodyCall (c : dbCall) : Bool :=
  match c with
  | .Exec .Tx _ _ => true
  | .Query .Tx _ _ => true
  | .QueryRow .Tx _ _ => true
  | _ => false

/-- A transaction body that only adds statements and queries of its cursor to the history. -/
def txBody {α : Type} (tf : cursorObj → List dbCall → (α × goError) × List dbCall) : Prop :=
  ∀ h, ∃ calls, (tf cursorObj.Tx h).2 = h ++ calls ∧ ∀ c ∈ calls, isBodyCall c = true

/-- A database like `demoDrv` in which no statement affects a row. -/
def noRowDrv : sqlDriver :=
  { demoDrv with Exec := fun _ _ _ _ => .ok { LastInsertId := (0, none), RowsAffected := (0, none) } }

/-- The environment `demoEnv` over `noRowDrv`. -/
def noRowEnv : goEnv := { demoEnv with drv := noRowDrv }

/-- A statement outcome that fails for the fifth call of a history and succeeds otherwise. -/
def failingFifthExec (h : List dbCall) : Except String sqlResult :=
  if h.length = 4 then .error "lock wait timeout"
  else .ok { LastInsertId := (7, none), RowsAffected := (1, none) }

/-- A database like `demoDrv` in which the fifth call, the insert of the associations of
`publishNote`, fails. -/
def failingInsertDrv : sqlDriver :=
  { demoDrv with Exec := fun h _ _ _ => failingFifthExec h }

/-- The environment `demoEnv` over `failingInsertDrv`. -/
def failingInsertEnv : goEnv := { demoEnv with drv := failingInsertDrv }

/-- A database like `demoDrv` whose note queries fail. -/
def failingQueryDrv : sqlDriver :=
  { demoDrv with QueryNotes := fun _ _ _ _ => .error "invalid connection" }

/-- The environment `demoEnv` over `failingQueryDrv`. -/
def failingQueryEnv : goEnv := { demoEnv with drv := failingQueryDrv }

/-- The joined row of the note 2 of `demoRows`, which has no tag: its tag columns are null. -/
def untaggedRow : noteSqlObj :=
  { ID := 2, Title := "b", Author := "me", Content := "<p>secret</p>", PlainText := "secret",
    Auth := true, Words := 6, CreatedAt := "2021", UpdatedAt := "2021",
    TagID := ⟨0, false⟩, TagName := ⟨"", false⟩ }

/-- What the row loop of `selectNoteByNoteID` builds from rows that all scan: nothing for no
row, else the note of the first row with one tag per row. -/
def foldedNote (rs : List noteSqlObj) : Option noteObj :=
  match rs with
  | [] => none
  | r :: _ => some { newNote r with Tags := rs.map rowTag }

/-- The row offset `(pageNo-1)*pageSize` of `selectNotesByTagID`, in `uint32` arithmetic. -/
def pageOffset (pageNo pageSize : Nat) : Nat := wrapU32 (wrapU32 (pageNo + 4294967296 - 1) * pageSize)

/-- The statement text of the page query of `selectNotesByTagID`. -/
def pageQuerySql (tagID : Nat) (autoSort : Bool) : String :=
  if tagID > 0 then selectNotesByTagSql (if autoSort then "order by update_at desc" else "")
  else selectNotesAllSql (if autoSort then "order by update_at desc" else "")

/-- The arguments of the page query of `selectNotesByTagID`. -/
def pageQueryArgs (pageNo pageSize tagID : Nat) : List sqlArg :=
  if tagID > 0 then [sqlArg.u32 tagID, sqlArg.u32 (pageOffset pageNo pageSize), sqlArg.u32 pageSize]
  else [sqlArg.u32 (pageOffset pageNo pageSize), sqlArg.u32 pageSize]

/-! ## The aggregates of a list of joined rows -/

/-- The distinct note ids occurring in the rows. -/
def noteIDs (rs : List noteSqlObj) : List Nat := (rs.map fun r => r.ID).dedup

/-- The tags of the rows of the note `id` that carry a tag, in row order. -/
def tagsOf (rs : List noteSqlObj) (id : Nat) : List tagObj :=
  (rs.filter fun r => r.ID == id && r.TagID.Valid).map rowTag

/-- The aggregate of the note `id`: the scalar fields of its first row and its tags. -/
def aggregate (rs : List noteSqlObj) (id : Nat) : Option noteObj :=
  (rs.find? fun r => r.ID == id).map fun r => { newNote r with Tags := tagsOf rs id }

/-- The invariant of the row loop of `selectNotesByTagID` after the rows `pre`: the map has
one entry per note id of the rows, holding the aggregate of that id. -/
def foldInv (pre : List noteSqlObj) (m : List (Nat × noteObj)) : Prop :=
  (m.map Prod.fst).Nodup ∧
  (∀ id, id ∈ m.map Prod.fst ↔ ∃ r ∈ pre, r.ID = id) ∧
  (∀ kv ∈ m, aggregate pre kv.1 = some kv.2)

/-- The first row of `demoRows`: note 1 with the tag 3. -/
def demoRow1 : noteSqlObj :=
  { ID := 1, Title := "a", Author := "me", Content := "<p>hello</p>", PlainText := "hello",
    Auth := false, Words := 5, CreatedAt := "2020", UpdatedAt := "2020",
    TagID := ⟨3, true⟩, TagName := ⟨"go", true⟩ }

/-- The third row of `demoRows`: note 1 with the tag 4. -/
def demoRow3 : noteSqlObj :=
  { ID := 1, Title := "a", Author := "me", Content := "<p>hello</p>", PlainText := "hello",
    Auth := false, Words := 5, CreatedAt := "2020", UpdatedAt := "2020",
    TagID := ⟨4, true⟩, TagName := ⟨"lean", true⟩ }

/-! ## The repository steps of the three writes

The errors of the repository calls of a transaction body in the order of the source, each
call made on the history the calls before it leave and with the results they returned. -/

/-- The errors of the four repository steps of `publishNote`: `insertNote`, `insertTags`,
`selectTagsByName` and `insertNoteTags`. -/
def publishStepErrors (env : goEnv) (title content : String) (priv : Bool)
    (tagsName : List String) (h : List dbCall) : List goError :=
  let s1 := insertNote env.drv cursorObj.Tx title env.cfg.note_default_author content
    (plainTextAndWords env content).1 priv (plainTextAndWords env content).2 h
  let s2 := insertTags env.drv cursorObj.Tx true tagsName s1.2
  let s3 := selectTagsByName env.drv cursorObj.Tx false true tagsName s2.2
  let s4 := insertNoteTags env.drv cursorObj.Tx s1.1.1 s3.1.1 s3.2
  [s1.1.2, s2.1.2, s3.1.2, s4.1.2]

/-- The errors of the five repository steps of `updateNote`: `updateNoteByNoteID`,
`deleteNoteTagsByNoteID`, `insertTags`, `selectTagsByName` and `insertNoteTags`. -/
def updateStepErrors (env : goEnv) (noteID : Nat) (title content : String) (priv : Bool)
    (tagsName : List String) (h : List dbCall) : List goError :=
  let s1 := updateNoteByNoteID env.drv cursorObj.Tx noteID title content
    (plainTextAndWords env content).1 (plainTextAndWords env content).2 priv h
  let s2 := deleteNoteTagsByNoteID env.drv cursorObj.Tx noteID s1.2
  let s3 := insertTags env.drv cursorObj.Tx true tagsName s2.2
  let s4 := selectTagsByName env.drv cursorObj.Tx false true tagsName s3.2
  let s5 := insertNoteTags env.drv cursorObj.Tx noteID s4.1.1 s4.2
  [s1.1.2, s2.1.2, s3.1.2, s4.1.2, s5.1.2]

/-- The errors of the two repository steps of `deleteNote`: `deleteNoteByNoteID` and
`deleteNoteTagsByNoteID`. -/
def deleteStepErrors (env : goEnv) (noteID : Nat) (h : List dbCall) : List goError :=
  let s1 := deleteNoteByNoteID env.drv cursorObj.Tx noteID h
  let s2 := deleteNoteTagsByNoteID env.drv cursorObj.Tx noteID s1.2
  [s1.1.2, s2.1.2]

/-- A database like `demoDrv` in which the third call of a history fails: the delete of
the associations in `updateNote` and in `deleteNote`. -/
def failingThirdDrv : sqlDriver :=
  { demoDrv with Exec := fun h _ _ _ =>
      if h.length = 2 then .error "deadlock" else .ok ⟨(7, none), (1, none)⟩ }

/-- The environment `demoEnv` over `failingThirdDrv`. -/
def failingThirdEnv : goEnv := { demoEnv with drv := failingThirdDrv }

/-! # Theorems -/

/-! ## Pagination -/

theorem wrapInt_of_isInt {x : Int} (h : isInt x) : wrapInt x = x := by
  unfold wrapInt; unfold isInt at h; omega

theorem isInt_wrapInt (x : Int) : isInt (wrapInt x) := by
  unfold wrapInt isInt; omega

theorem totalPages_eq_ediv (tc ps : Int) (hps : 0 < ps) :
    totalPages tc ps = (tc + ps - 1) / ps := by
  unfold totalPages
  rw [Int.ceil_eq_iff]
  have hq : (0 : ℚ) < (ps : ℚ) := by exact_mod_cast hps
  have h1 : (tc + ps - 1) / ps * ps ≤ tc + ps - 1 := Int.ediv_mul_le _ (ne_of_gt hps)
  have h2 : tc + ps - 1 < ((tc + ps - 1) / ps + 1) * ps := Int.lt_ediv_add_one_mul_self _ hps
  constructor
  · rw [lt_div_iff₀ hq]
    have : ((tc + ps - 1) / ps - 1) * ps < tc := by nlinarith
    exact_mod_cast this
  · rw [div_le_iff₀ hq]
    have : tc ≤ (tc + ps - 1) / ps * ps := by nlinarith
    exact_mod_cast this

theorem tdiv_bounds_nonneg {a b : Int} (ha : 0 ≤ a) (hb : 0 < b) :
    Int.tdiv a b = a / b ∧ 0 ≤ a / b ∧ a / b ≤ a := by
  refine ⟨Int.tdiv_eq_ediv ha (le_of_lt hb), Int.ediv_nonneg ha (le_of_lt hb), ?_⟩
  exact Int.ediv_le_self b ha

theorem tdiv_bounds_neg {a b : Int} (ha : a < 0) (hb : 0 < b) :
    Int.tdiv a b ≤ 0 ∧ a ≤ Int.tdiv a b := by
  have h := tdiv_bounds_nonneg (a := -a) (b := b) (by omega) hb
  have e : Int.tdiv a b = -(Int.tdiv (-a) b) := by
    rw [Int.neg_tdiv]; simp
  rw [e, h.1]
  omega


theorem codeTotalPage_exact {ps tc : Int} (hps : 0 < ps) (htc : 0 < tc)
    (hS : tc + ps - 1 < 9223372036854775808) :
    codeTotalPage ps tc = totalPages tc ps := by
  rw [totalPages_eq_ediv tc ps hps]
  unfold codeTotalPage intDiv intSub intAdd
  have e1 : wrapInt (wrapInt (tc + ps) - 1) = tc + ps - 1 := by
    unfold wrapInt; omega
  rw [e1]
  obtain ⟨h1, h2, h3⟩ := tdiv_bounds_nonneg (a := tc + ps - 1) (b := ps) (by omega) hps
  rw [h1]
  apply wrapInt_of_isInt
  unfold isInt; omega

theorem codeTotalPage_overflow {ps tc : Int} (hps : 0 < ps) (htc : 0 < tc)
    (hp : isInt ps) (ht : isInt tc)
    (hS : 9223372036854775808 ≤ tc + ps - 1) :
    codeTotalPage ps tc ≤ 0 := by
  unfold codeTotalPage intDiv intSub intAdd
  unfold isInt at hp ht
  have e1 : wrapInt (wrapInt (tc + ps) - 1) = tc + ps - 1 - 18446744073709551616 := by
    unfold wrapInt; omega
  rw [e1]
  obtain ⟨h1, h2⟩ := tdiv_bounds_neg (a := tc + ps - 1 - 18446744073709551616) (b := ps) (by omega) hps
  rw [wrapInt_of_isInt (by unfold isInt; omega)]
  exact h1

theorem totalPages_pos {ps tc : Int} (hps : 0 < ps) (htc : 0 < tc) : 0 < totalPages tc ps := by
  rw [totalPages_eq_ediv tc ps hps]
  have : 1 ≤ (tc + ps - 1) / ps := by
    rw [Int.le_ediv_iff_mul_le hps]; omega
  omega

theorem totalPages_le {ps tc : Int} (hps : 0 < ps) (htc : 0 < tc) : totalPages tc ps ≤ tc := by
  rw [totalPages_eq_ediv tc ps hps]
  have h1 : (tc + ps - 1) / ps * ps ≤ tc + ps - 1 := Int.ediv_mul_le _ (ne_of_gt hps)
  by_contra hc
  have : tc + 1 ≤ (tc + ps - 1) / ps := by omega
  nlinarith

/-- C1. `calcPage` returns the zero page whenever `pageSize <= 0`, `curPage <= 0` or
`totalCount <= 0`, and whenever `pageSize > 0`, `totalCount > 0` and
`curPage > ceil(totalCount / pageSize)`, for every configured window size. -/
theorem calcPage_zero_page (winSize curPage pageSize totalCount : Int)
    (hp : isInt pageSize) (ht : isInt totalCount)
    (h : pageSize ≤ 0 ∨ curPage ≤ 0 ∨ totalCount ≤ 0 ∨
      (0 < pageSize ∧ 0 < totalCount ∧ totalPages totalCount pageSize < curPage)) :
    calcPage winSize curPage pageSize totalCount = { Left := 0, Right := 0, Cur := 0, Total := 0 } := by
  unfold calcPage
  by_cases h0 : pageSize ≤ 0 ∨ curPage ≤ 0 ∨ totalCount ≤ 0
  · rw [if_pos h0]
  · rw [if_neg h0]
    have hps : 0 < pageSize := by omega
    have htc : 0 < totalCount := by omega
    have hcur : totalPages totalCount pageSize < curPage := by
      rcases h with h | h | h | h
      · omega
      · omega
      · omega
      · exact h.2.2
    have hlt : curPage > codeTotalPage pageSize totalCount := by
      by_cases hS : totalCount + pageSize - 1 < 9223372036854775808
      · rw [codeTotalPage_exact hps htc hS]; exact hcur
      · have := codeTotalPage_overflow hps htc hp ht (by omega)
        omega
    unfold codeTotalPage at hlt
    simp only [hlt, if_true]

theorem calcPage_zero_page_witness :
    calcPage 5 11 10 95 = { Left := 0, Right := 0, Cur := 0, Total := 0 } :=
  calcPage_zero_page 5 11 10 95 (by decide) (by decide)
    (Or.inr (Or.inr (Or.inr ⟨by decide, by decide, by
      rw [totalPages_eq_ediv 95 10 (by decide)]; decide⟩)))


theorem toUint32_of_lt {x : Int} (h0 : 0 ≤ x) (h1 : x < 4294967296) : ((toUint32 x : Nat) : Int) = x := by
  unfold toUint32; omega

theorem calcPage_in_range (winSize curPage pageSize totalCount : Int)
    (hps : 0 < pageSize) (htc : 0 < totalCount)
    (hS : totalCount + pageSize - 1 < 9223372036854775808)
    (hw : 1 ≤ winSize) (hw2 : winSize < 9223372036854775808)
    (hT : totalPages totalCount pageSize < 4294967296)
    (h1 : 1 ≤ curPage) (h2 : curPage ≤ totalPages totalCount pageSize) :
    ((calcPage winSize curPage pageSize totalCount).Left : Int)
        = (windowOf winSize curPage (totalPages totalCount pageSize)).1 ∧
    ((calcPage winSize curPage pageSize totalCount).Right : Int)
        = (windowOf winSize curPage (totalPages totalCount pageSize)).2 ∧
    ((calcPage winSize curPage pageSize totalCount).Cur : Int) = curPage ∧
    ((calcPage winSize curPage pageSize totalCount).Total : Int) = totalPages totalCount pageSize := by
  have hT0 := totalPages_pos hps htc
  have hcode := codeTotalPage_exact hps htc hS
  unfold codeTotalPage at hcode
  generalize totalPages totalCount pageSize = T at *
  unfold calcPage
  rw [if_neg (by omega)]
  simp only [hcode]
  rw [if_neg (by omega)]
  obtain ⟨d1, d2, d3⟩ := tdiv_bounds_nonneg (a := winSize) (b := 2) (by omega) (by decide)
  have hdist : intDiv winSize 2 = winSize / 2 := by
    unfold intDiv; rw [d1]; apply wrapInt_of_isInt; unfold isInt; omega
  have hleft : intSub curPage (winSize / 2) = curPage - winSize / 2 := by
    unfold intSub; apply wrapInt_of_isInt; unfold isInt; omega
  have hright : intAdd curPage (winSize / 2) = curPage + winSize / 2 := by
    unfold intAdd; apply wrapInt_of_isInt; unfold isInt; omega
  have hl2 : intAdd (intSub T winSize) 1 = T - winSize + 1 := by
    unfold intAdd intSub wrapInt; omega
  simp only [hdist, hleft, hright, hl2]
  unfold windowOf
  have hcurU := toUint32_of_lt (x := curPage) (by omega) (by omega)
  have hTU := toUint32_of_lt (x := T) (by omega) (by omega)
  by_cases c1 : curPage - winSize / 2 ≤ 0
  · simp only [if_pos c1]
    refine ⟨by decide, ?_, hcurU, hTU⟩
    have e : Notebook.min winSize T = Min.min winSize T := by
      unfold Notebook.min; split <;> omega
    rw [e]
    exact toUint32_of_lt (by omega) (by omega)
  · simp only [if_neg c1]
    by_cases c2 : curPage + winSize / 2 > T
    · simp only [if_pos c2]
      refine ⟨?_, hTU, hcurU, hTU⟩
      have e : Notebook.max (T - winSize + 1) 1 = Max.max (T - winSize + 1) 1 := by
        unfold Notebook.max; split <;> omega
      rw [e]
      exact toUint32_of_lt (by omega) (by omega)
    · simp only [if_neg c2]
      exact ⟨toUint32_of_lt (by omega) (by omega), toUint32_of_lt (by omega) (by omega), hcurU, hTU⟩


theorem totalPages_example : totalPages 95 10 = 10 := by
  rw [totalPages_eq_ediv 95 10 (by decide)]; decide

/-- C2 (as stated, refuted). With `curPage = totalCount = 2^32`, `pageSize = 1` and window 5
the premises of the claim hold, yet the `uint32` fields of the result are
`(Left, Right, Cur, Total) = (4294967292, 0, 0, 0)`: `Cur` is not `curPage` and
`Total` is not `totalPages`. -/
theorem calcPage_window_counterexample :
    (0 : Int) < 1 ∧ (0 : Int) < 4294967296 ∧ (1 : Int) ≤ 5 ∧ (1 : Int) ≤ 4294967296 ∧
    (4294967296 : Int) ≤ totalPages 4294967296 1 ∧
    calcPage 5 4294967296 1 4294967296 = { Left := 4294967292, Right := 0, Cur := 0, Total := 0 } ∧
    ((calcPage 5 4294967296 1 4294967296).Cur : Int) ≠ 4294967296 ∧
    ((calcPage 5 4294967296 1 4294967296).Total : Int) ≠ totalPages 4294967296 1 := by
  have hT : totalPages 4294967296 1 = 4294967296 := by
    rw [totalPages_eq_ediv _ 1 (by decide)]; decide
  rw [hT]
  decide

/-- C2 (amended). For `pageSize > 0`, `totalCount > 0` whose sum `totalCount + pageSize - 1`
fits the 64-bit `int`, a window size `1 <= w < 2^63` and `1 <= curPage <= totalPages` with
`totalPages = ceil(totalCount / pageSize) < 2^32`, `calcPage` returns `Cur = curPage`,
`Total = totalPages` and the clamped window: with `half = w / 2`, if `curPage - half <= 0`
then `Left = 1`, `Right = min(w, totalPages)`; else if `curPage + half > totalPages` then
`Right = totalPages`, `Left = max(totalPages - w + 1, 1)`; otherwise `Left = curPage - half`,
`Right = curPage + half`. In particular `totalCount = 95`, `pageSize = 10`, `w = 5` gives
`(1, 5, 1, 10)` for `curPage = 1` and `(6, 10, 10, 10)` for `curPage = 10`. -/
theorem calcPage_window :
    (∀ winSize curPage pageSize totalCount : Int,
      0 < pageSize → 0 < totalCount →
      totalCount + pageSize - 1 < 9223372036854775808 →
      1 ≤ winSize → winSize < 9223372036854775808 →
      totalPages totalCount pageSize < 4294967296 →
      1 ≤ curPage → curPage ≤ totalPages totalCount pageSize →
      ((calcPage winSize curPage pageSize totalCount).Cur : Int) = curPage ∧
      ((calcPage winSize curPage pageSize totalCount).Total : Int) = totalPages totalCount pageSize ∧
      (curPage - winSize / 2 ≤ 0 →
        ((calcPage winSize curPage pageSize totalCount).Left : Int) = 1 ∧
        ((calcPage winSize curPage pageSize totalCount).Right : Int)
          = Min.min winSize (totalPages totalCount pageSize)) ∧
      (0 < curPage - winSize / 2 → totalPages totalCount pageSize < curPage + winSize / 2 →
        ((calcPage winSize curPage pageSize totalCount).Right : Int) = totalPages totalCount pageSize ∧
        ((calcPage winSize curPage pageSize totalCount).Left : Int)
          = Max.max (totalPages totalCount pageSize - winSize + 1) 1) ∧
      (0 < curPage - winSize / 2 → curPage + winSize / 2 ≤ totalPages totalCount pageSize →
        ((calcPage winSize curPage pageSize totalCount).Left : Int) = curPage - winSize / 2 ∧
        ((calcPage winSize curPage pageSize totalCount).Right : Int) = curPage + winSize / 2)) ∧
    calcPage 5 1 10 95 = { Left := 1, Right := 5, Cur := 1, Total := 10 } ∧
    calcPage 5 10 10 95 = { Left := 6, Right := 10, Cur := 10, Total := 10 } := by
  refine ⟨?_, by decide, by decide⟩
  intro winSize curPage pageSize totalCount hps htc hS hw hw2 hT h1 h2
  obtain ⟨hL, hR, hC, hTot⟩ :=
    calcPage_in_range winSize curPage pageSize totalCount hps htc hS hw hw2 hT h1 h2
  unfold windowOf at hL hR
  refine ⟨hC, hTot, ?_, ?_, ?_⟩
  · intro c1
    rw [if_pos c1] at hL hR
    exact ⟨hL, hR⟩
  · intro c1 c2
    rw [if_neg (by omega), if_pos (by omega)] at hL hR
    exact ⟨hR, hL⟩
  · intro c1 c2
    rw [if_neg (by omega), if_neg (by omega)] at hL hR
    exact ⟨hL, hR⟩

theorem calcPage_window_witness :
    ((calcPage 5 4 10 95).Cur : Int) = 4 ∧ ((calcPage 5 4 10 95).Total : Int) = totalPages 95 10 ∧
    ((calcPage 5 4 10 95).Left : Int) = 4 - 5 / 2 ∧ ((calcPage 5 4 10 95).Right : Int) = 4 + 5 / 2 := by
  have h := calcPage_window.1 5 4 10 95 (by decide) (by decide) (by decide) (by decide) (by decide)
    (by rw [totalPages_example]; decide) (by decide) (by rw [totalPages_example]; decide)
  exact ⟨h.1, h.2.1, h.2.2.2.2 (by decide) (by rw [totalPages_example]; decide)⟩

/-- C3 (as stated, refuted). With `curPage = 2^32 + 1`, `totalCount = 2^32 + 4`, `pageSize = 1`
and window 5 the premises hold and the result is `(Left, Right, Cur, Total) =
(4294967295, 3, 1, 4)`, so `Left <= Cur` fails. -/
theorem calcPage_order_counterexample :
    (0 : Int) < 1 ∧ (0 : Int) < 4294967300 ∧ (1 : Int) ≤ 5 ∧ (1 : Int) ≤ 4294967297 ∧
    (4294967297 : Int) ≤ totalPages 4294967300 1 ∧
    calcPage 5 4294967297 1 4294967300 = { Left := 4294967295, Right := 3, Cur := 1, Total := 4 } ∧
    ¬ ((calcPage 5 4294967297 1 4294967300).Left ≤ (calcPage 5 4294967297 1 4294967300).Cur) := by
  have hT : totalPages 4294967300 1 = 4294967300 := by
    rw [totalPages_eq_ediv _ 1 (by decide)]; decide
  rw [hT]
  decide

/-- C3 (amended). For `pageSize > 0`, `totalCount > 0` whose sum `totalCount + pageSize - 1`
fits the 64-bit `int`, a window size `1 <= w < 2^63` and `1 <= curPage <= totalPages` with
`totalPages = ceil(totalCount / pageSize) < 2^32`, the page returned by `calcPage`
satisfies `1 <= Left <= Cur <= Right <= Total`. -/
theorem calcPage_order (winSize curPage pageSize totalCount : Int)
    (hps : 0 < pageSize) (htc : 0 < totalCount)
    (hS : totalCount + pageSize - 1 < 9223372036854775808)
    (hw : 1 ≤ winSize) (hw2 : winSize < 9223372036854775808)
    (hT : totalPages totalCount pageSize < 4294967296)
    (h1 : 1 ≤ curPage) (h2 : curPage ≤ totalPages totalCount pageSize) :
    1 ≤ (calcPage winSize curPage pageSize totalCount).Left ∧
    (calcPage winSize curPage pageSize totalCount).Left ≤ (calcPage winSize curPage pageSize totalCount).Cur ∧
    (calcPage winSize curPage pageSize totalCount).Cur ≤ (calcPage winSize curPage pageSize totalCount).Right ∧
    (calcPage winSize curPage pageSize totalCount).Right ≤ (calcPage winSize curPage pageSize totalCount).Total := by
  obtain ⟨hL, hR, hC, hTot⟩ :=
    calcPage_in_range winSize curPage pageSize totalCount hps htc hS hw hw2 hT h1 h2
  unfold windowOf at hL hR
  generalize totalPages totalCount pageSize = T at *
  generalize calcPage winSize curPage pageSize totalCount = p at *
  by_cases c1 : curPage - winSize / 2 ≤ 0
  · rw [if_pos c1] at hL hR
    simp only at hL hR
    omega
  · rw [if_neg c1] at hL hR
    by_cases c2 : curPage + winSize / 2 > T
    · rw [if_pos c2] at hL hR
      simp only at hL hR
      omega
    · rw [if_neg c2] at hL hR
      simp only at hL hR
      omega

theorem calcPage_order_witness :
    1 ≤ (calcPage 5 10 10 95).Left ∧
    (calcPage 5 10 10 95).Left ≤ (calcPage 5 10 10 95).Cur ∧
    (calcPage 5 10 10 95).Cur ≤ (calcPage 5 10 10 95).Right ∧
    (calcPage 5 10 10 95).Right ≤ (calcPage 5 10 10 95).Total :=
  calcPage_order 5 10 10 95 (by decide) (by decide) (by decide) (by decide) (by decide)
    (by rw [totalPages_example]; decide) (by decide) (by rw [totalPages_example])

/-- C4 (failing input). With the even window size 4, `totalCount = 95`, `pageSize = 10` and
`curPage = 5` (a valid page, `1 <= 5 <= 10`) `calcPage` returns `Left = 3`, `Right = 7`:
five page numbers, one more than the window size. -/
theorem calcPage_even_window_overshoot :
    (1 : Int) ≤ 5 ∧ (5 : Int) ≤ totalPages 95 10 ∧
    calcPage 4 5 10 95 = { Left := 3, Right := 7, Cur := 5, Total := 10 } ∧
    ¬ ((calcPage 4 5 10 95).Right - (calcPage 4 5 10 95).Left + 1 ≤ 4) := by
  rw [totalPages_example]
  decide

/-- In range, the window of `calcPage` holds at most `w` page numbers when `w` is odd and at
most `w + 1` when `w` is even; the two clamped branches never exceed `w`. -/
theorem calcPage_window_size (winSize curPage pageSize totalCount : Int)
    (hps : 0 < pageSize) (htc : 0 < totalCount)
    (hS : totalCount + pageSize - 1 < 9223372036854775808)
    (hw : 1 ≤ winSize) (hw2 : winSize < 9223372036854775808)
    (hT : totalPages totalCount pageSize < 4294967296)
    (h1 : 1 ≤ curPage) (h2 : curPage ≤ totalPages totalCount pageSize) :
    ((calcPage winSize curPage pageSize totalCount).Right : Int)
      - (calcPage winSize curPage pageSize totalCount).Left + 1 ≤ 2 * (winSize / 2) + 1 ∧
    ((curPage - winSize / 2 ≤ 0 ∨ totalPages totalCount pageSize < curPage + winSize / 2) →
      ((calcPage winSize curPage pageSize totalCount).Right : Int)
        - (calcPage winSize curPage pageSize totalCount).Left + 1 ≤ winSize) := by
  obtain ⟨hL, hR, hC, hTot⟩ :=
    calcPage_in_range winSize curPage pageSize totalCount hps htc hS hw hw2 hT h1 h2
  unfold windowOf at hL hR
  generalize totalPages totalCount pageSize = T at *
  generalize calcPage winSize curPage pageSize totalCount = p at *
  by_cases c1 : curPage - winSize / 2 ≤ 0
  · rw [if_pos c1] at hL hR
    simp only at hL hR
    omega
  · rw [if_neg c1] at hL hR
    by_cases c2 : curPage + winSize / 2 > T
    · rw [if_pos c2] at hL hR
      simp only at hL hR
      omega
    · rw [if_neg c2] at hL hR
      simp only at hL hR
      omega

/-! ## Session token -/

theorem isAuth_eq_true_iff (RDS : redisObj) (token : String) :
    isAuth RDS token = true ↔ token ≠ "" ∧ RDS.Get tokenKey = Except.ok token := by
  unfold isAuth getToken
  by_cases h : token = ""
  · simp [h]
  · cases hg : RDS.Get tokenKey with
    | error e => simp [h]
    | ok v => simp [h]

theorem redisObj_Get_absent (RDS : redisObj) (key : String)
    (h : ∀ e ∈ RDS.entries, e.key ≠ key) : ∃ err, RDS.Get key = Except.error err := by
  unfold redisObj.Get
  cases RDS.fault with
  | some e => exact ⟨e, rfl⟩
  | none =>
    have hf : RDS.entries.find? (fun e => e.key == key) = none := by
      rw [List.find?_eq_none]
      intro e he
      simpa using h e he
    simp only [hf]
    exact ⟨redisNil, rfl⟩

/-- C5. `isAuth(token)` is true exactly when the token is not empty, the cache read of the
token key succeeds and the stored value equals the token; it is false for the empty token,
for an absent key, for a different stored value and for a failing cache read. -/
theorem isAuth_iff (RDS : redisObj) (token : String) :
    (isAuth RDS token = true ↔
      token ≠ "" ∧ ∃ v, RDS.Get tokenKey = Except.ok v ∧ v = token) ∧
    (token = "" → isAuth RDS token = false) ∧
    ((∀ e ∈ RDS.entries, e.key ≠ tokenKey) → isAuth RDS token = false) ∧
    (∀ v, RDS.Get tokenKey = Except.ok v → v ≠ token → isAuth RDS token = false) ∧
    (∀ err, RDS.Get tokenKey = Except.error err → isAuth RDS token = false) := by
  have key := isAuth_eq_true_iff RDS token
  refine ⟨?_, ?_, ?_, ?_, ?_⟩
  · rw [key]
    constructor
    · rintro ⟨h1, h2⟩
      exact ⟨h1, token, h2, rfl⟩
    · rintro ⟨h1, v, h2, h3⟩
      exact ⟨h1, by rw [h2, h3]⟩
  · intro h
    rw [← Bool.not_eq_true, key]
    exact fun hh => hh.1 h
  · intro h
    obtain ⟨err, herr⟩ := redisObj_Get_absent RDS tokenKey h
    rw [← Bool.not_eq_true, key, herr]
    exact fun hh => by cases hh.2
  · intro v hv hne
    rw [← Bool.not_eq_true, key, hv]
    intro hh
    exact hne (by injection hh.2)
  · intro err herr
    rw [← Bool.not_eq_true, key, herr]
    exact fun hh => by cases hh.2

theorem isAuth_iff_witness : isAuth (tokenCache "abc") "abd" = false :=
  (isAuth_iff (tokenCache "abc") "abd").2.2.2.1 "abc" rfl (by decide)

theorem base64Encode_ne_nil (l : List Nat) (h : l ≠ []) : base64Encode l ≠ [] := by
  match l with
  | [] => exact absurd rfl h
  | [_] => simp [base64Encode]
  | [_, _] => simp [base64Encode]
  | _ :: _ :: _ :: _ => simp [base64Encode]

theorem genToken_ne_empty (rnd : Except String (List Nat)) (t : String)
    (h : genToken rnd = (t, none)) : t ≠ "" := by
  unfold genToken at h
  cases rnd with
  | error e => simp at h
  | ok bytes =>
    simp only [Prod.mk.injEq, and_true] at h
    intro ht
    rw [ht] at h
    have h2 := congrArg String.data h
    simp only at h2
    exact base64Encode_ne_nil _ (by simp [List.range_succ_eq_map]) h2

theorem redisObj_Set_ok (RDS RDS1 : redisObj) (key val : String) (ttl : Int)
    (h : RDS.Set key val ttl = (none, RDS1)) :
    RDS1.Get key = Except.ok val ∧ RDS1.fault = none := by
  unfold redisObj.Set at h
  cases hf : RDS.fault with
  | some e => simp [hf] at h
  | none =>
    simp only [hf, Prod.mk.injEq, true_and] at h
    subst h
    simp [redisObj.Get, hf]

theorem redisObj_Del_ok (RDS RDS1 : redisObj) (key : String)
    (h : RDS.Del key = (none, RDS1)) :
    (∀ e ∈ RDS1.entries, e.key ≠ key) ∧ RDS1.Del key = (none, RDS1) := by
  unfold redisObj.Del at h
  cases hf : RDS.fault with
  | some e => simp [hf] at h
  | none =>
    simp only [hf, Prod.mk.injEq, true_and] at h
    subst h
    constructor
    · intro e he
      simp only [List.mem_filter] at he
      simpa using he.2
    · simp [redisObj.Del, hf, List.filter_filter]

theorem auth_ok_inv (env : goEnv) (rnd : Except String (List Nat)) (password : String)
    (RDS RDS1 : redisObj) (t : String) (h : auth env rnd password RDS = ((t, none), RDS1)) :
    t ≠ "" ∧ setToken RDS t = (none, RDS1) := by
  unfold auth at h
  cases hb : env.bcryptCompare env.cfg.auth_hashed_password password with
  | some e => simp [hb] at h
  | none =>
    simp only [hb] at h
    rcases hg : genToken rnd with ⟨tok, _ | e⟩
    · simp only [hg] at h
      rcases hs : setToken RDS tok with ⟨_ | e, R⟩
      · simp only [hs, Prod.mk.injEq, and_true] at h
        obtain ⟨h1, h2⟩ := h
        rw [← h1, ← h2]
        exact ⟨genToken_ne_empty rnd tok hg, hs⟩
      · simp [hs] at h
    · simp [hg] at h

theorem isAuth_after_auth (env : goEnv) (rnd : Except String (List Nat)) (password : String)
    (RDS RDS1 : redisObj) (t : String) (h : auth env rnd password RDS = ((t, none), RDS1)) :
    ∀ t1, isAuth RDS1 t1 = true ↔ t1 = t := by
  obtain ⟨hne, hset⟩ := auth_ok_inv env rnd password RDS RDS1 t h
  obtain ⟨hget, _⟩ := redisObj_Set_ok RDS RDS1 tokenKey t _ hset
  intro t1
  rw [isAuth_eq_true_iff, hget]
  constructor
  · rintro ⟨_, h2⟩
    injection h2 with h2
    exact h2.symm
  · intro h1
    subst h1
    exact ⟨hne, rfl⟩

theorem setToken_healthy (RDS : redisObj) (tok : String) (hf : RDS.fault = none) :
    ∃ RDS1, setToken RDS tok = (none, RDS1) := by
  unfold setToken redisObj.Set
  simp only [hf]
  exact ⟨_, rfl⟩

theorem auth_healthy (env : goEnv) (bytes : List Nat) (password : String) (RDS : redisObj)
    (hf : RDS.fault = none)
    (hb : env.bcryptCompare env.cfg.auth_hashed_password password = none) :
    ∃ t RDS1, auth env (Except.ok bytes) password RDS = ((t, none), RDS1) := by
  obtain ⟨RDS1, h1⟩ := setToken_healthy RDS
    (String.mk (base64Encode ((List.range 32).map fun i => bytes.getD i 0 % 256))) hf
  refine ⟨String.mk (base64Encode ((List.range 32).map fun i => bytes.getD i 0 % 256)), RDS1, ?_⟩
  unfold auth
  simp only [hb, genToken, h1]

theorem deleteToken_healthy (RDS : redisObj) (hf : RDS.fault = none) :
    deleteToken RDS =
      (none, { RDS with entries := RDS.entries.filter (fun e => !(e.key == tokenKey)) }) := by
  unfold deleteToken redisObj.Del
  simp only [hf]

/-- C6. Over a cache whose commands succeed (no fault): `auth` with the right password
succeeds and `isAuth` accepts the token it returns; `deleteToken` (logout) succeeds, after
it `isAuth(t)` is false for every token `t`, and a second logout succeeds and leaves the
same state, as does a logout with nothing stored. Also in every cache state: after `auth`
has returned the token `t` without error `isAuth(t)` is true, and after `deleteToken` has
returned no error `isAuth(t)` is false for every `t`. -/
theorem auth_isAuth_logout :
    (∀ (env : goEnv) (rnd : Except String (List Nat)) (password t : String) (RDS RDS1 : redisObj),
      auth env rnd password RDS = ((t, none), RDS1) → isAuth RDS1 t = true) ∧
    (∀ (env : goEnv) (bytes : List Nat) (password : String) (RDS : redisObj),
      RDS.fault = none →
      env.bcryptCompare env.cfg.auth_hashed_password password = none →
      (auth env (Except.ok bytes) password RDS).1.2 = none ∧
      isAuth (auth env (Except.ok bytes) password RDS).2
        (auth env (Except.ok bytes) password RDS).1.1 = true) ∧
    (∀ (RDS : redisObj), RDS.fault = none →
      (deleteToken RDS).1 = none ∧
      (∀ t, isAuth (deleteToken RDS).2 t = false) ∧
      deleteToken (deleteToken RDS).2 = (none, (deleteToken RDS).2)) ∧
    (∀ (RDS RDS1 : redisObj), deleteToken RDS = (none, RDS1) →
      (∀ t, isAuth RDS1 t = false) ∧ deleteToken RDS1 = (none, RDS1)) ∧
    (deleteToken emptyCache = (none, emptyCache) ∧ ∀ t, isAuth emptyCache t = false) := by
  have hdel : ∀ (RDS RDS1 : redisObj), deleteToken RDS = (none, RDS1) →
      (∀ t, isAuth RDS1 t = false) ∧ deleteToken RDS1 = (none, RDS1) := by
    intro RDS RDS1 h
    obtain ⟨h1, h2⟩ := redisObj_Del_ok RDS RDS1 tokenKey h
    refine ⟨fun t => ?_, h2⟩
    obtain ⟨err, herr⟩ := redisObj_Get_absent RDS1 tokenKey h1
    rw [← Bool.not_eq_true, isAuth_eq_true_iff, herr]
    exact fun hh => by cases hh.2
  refine ⟨?_, ?_, ?_, hdel, ?_⟩
  · intro env rnd password t RDS RDS1 h
    exact (isAuth_after_auth env rnd password RDS RDS1 t h t).2 rfl
  · intro env bytes password RDS hf hb
    obtain ⟨t, RDS1, h⟩ := auth_healthy env bytes password RDS hf hb
    rw [h]
    exact ⟨rfl, (isAuth_after_auth env (Except.ok bytes) password RDS RDS1 t h t).2 rfl⟩
  · intro RDS hf
    have h := deleteToken_healthy RDS hf
    obtain ⟨h1, h2⟩ := hdel RDS _ h
    rw [h]
    exact ⟨rfl, h1, h2⟩
  · have e : deleteToken emptyCache = (none, emptyCache) := rfl
    exact ⟨e, (hdel _ _ e).1⟩

theorem demo_auth_first :
    auth demoEnv (Except.ok [1, 2, 3]) "pw" emptyCache =
      (("AQIDAAAAAAAAAAAAAAAAAAAAAAAAAAAAAAAAAAAAAAA=", none),
        tokenCache "AQIDAAAAAAAAAAAAAAAAAAAAAAAAAAAAAAAAAAAAAAA=") := by
  decide

theorem demo_auth_second :
    auth demoEnv (Except.ok [9]) "pw" (tokenCache "AQIDAAAAAAAAAAAAAAAAAAAAAAAAAAAAAAAAAAAAAAA=") =
      (("CQAAAAAAAAAAAAAAAAAAAAAAAAAAAAAAAAAAAAAAAAA=", none),
        tokenCache "CQAAAAAAAAAAAAAAAAAAAAAAAAAAAAAAAAAAAAAAAAA=") := by
  decide

theorem auth_isAuth_logout_witness :
    ((auth demoEnv (Except.ok [1, 2, 3]) "pw" emptyCache).1.2 = none ∧
      isAuth (auth demoEnv (Except.ok [1, 2, 3]) "pw" emptyCache).2
        (auth demoEnv (Except.ok [1, 2, 3]) "pw" emptyCache).1.1 = true) ∧
    (deleteToken (tokenCache "AQIDAAAAAAAAAAAAAAAAAAAAAAAAAAAAAAAAAAAAAAA=")).1 = none ∧
    isAuth (deleteToken (tokenCache "AQIDAAAAAAAAAAAAAAAAAAAAAAAAAAAAAAAAAAAAAAA=")).2
      "AQIDAAAAAAAAAAAAAAAAAAAAAAAAAAAAAAAAAAAAAAA=" = false ∧
    isAuth (tokenCache "AQIDAAAAAAAAAAAAAAAAAAAAAAAAAAAAAAAAAAAAAAA=")
      "AQIDAAAAAAAAAAAAAAAAAAAAAAAAAAAAAAAAAAAAAAA=" = true :=
  ⟨auth_isAuth_logout.2.1 demoEnv [1, 2, 3] "pw" emptyCache rfl rfl,
   (auth_isAuth_logout.2.2.1 (tokenCache "AQIDAAAAAAAAAAAAAAAAAAAAAAAAAAAAAAAAAAAAAAA=") rfl).1,
   (auth_isAuth_logout.2.2.1 (tokenCache "AQIDAAAAAAAAAAAAAAAAAAAAAAAAAAAAAAAAAAAAAAA=") rfl).2.1 _,
   auth_isAuth_logout.1 demoEnv (Except.ok [1, 2, 3]) "pw" _ emptyCache _ demo_auth_first⟩

theorem isAuth_unique (RDS : redisObj) (t1 t2 : String)
    (h1 : isAuth RDS t1 = true) (h2 : isAuth RDS t2 = true) : t1 = t2 := by
  rw [isAuth_eq_true_iff] at h1 h2
  have := h1.2.symm.trans h2.2
  injection this

/-- C7. In every cache state reachable by `auth` and logout at most one token is valid: two
tokens that both pass `isAuth` are equal; and once a successful `auth` has returned the
token `t2`, every other token `t1`, in particular the one of an earlier `auth`, fails
`isAuth`. -/
theorem single_valid_token :
    (∀ (env : goEnv) (r : redisObj), Reachable env r →
      ∀ t1 t2, isAuth r t1 = true → isAuth r t2 = true → t1 = t2) ∧
    (∀ (env : goEnv) (r r1 r2 : redisObj), Reachable env r →
      ∀ (rnd1 rnd2 : Except String (List Nat)) (pw1 pw2 t1 t2 : String),
      auth env rnd1 pw1 r = ((t1, none), r1) →
      auth env rnd2 pw2 r1 = ((t2, none), r2) →
      t2 ≠ t1 → isAuth r2 t1 = false) := by
  refine ⟨fun _ r _ t1 t2 h1 h2 => isAuth_unique r t1 t2 h1 h2, ?_⟩
  intro env r r1 r2 _ rnd1 rnd2 pw1 pw2 t1 t2 _ h2 hne
  rw [← Bool.not_eq_true, isAuth_after_auth env rnd2 pw2 r1 r2 t2 h2 t1]
  exact fun h => hne h.symm

theorem single_valid_token_witness :
    isAuth (tokenCache "CQAAAAAAAAAAAAAAAAAAAAAAAAAAAAAAAAAAAAAAAAA=")
      "AQIDAAAAAAAAAAAAAAAAAAAAAAAAAAAAAAAAAAAAAAA=" = false :=
  single_valid_token.2 demoEnv emptyCache _ _ (Reachable.init none)
    (Except.ok [1, 2, 3]) (Except.ok [9]) "pw" "pw" _ _ demo_auth_first demo_auth_second (by decide)

/-! ## Writes: plain text and word count -/

theorem insertNote_hist (drv : sqlDriver) (cursor : cursorObj) (title author content plainText : String)
    (priv : Bool) (words : Nat) (h : List dbCall) :
    (insertNote drv cursor title author content plainText priv words h).2 =
      h ++ [dbCall.Exec cursor insertNoteSql [sqlArg.str title, sqlArg.str author, sqlArg.str content,
        sqlArg.str plainText, sqlArg.u32 words, sqlArg.bool priv]] := by
  unfold insertNote
  simp only
  split
  · rfl
  · split <;> rfl

theorem updateNoteByNoteID_hist (drv : sqlDriver) (cursor : cursorObj) (noteID : Nat)
    (title content plainText : String) (words : Nat) (priv : Bool) (h : List dbCall) :
    (updateNoteByNoteID drv cursor noteID title content plainText words priv h).2 =
      h ++ [dbCall.Exec cursor updateNoteByNoteIDSql [sqlArg.str title, sqlArg.str content,
        sqlArg.str plainText, sqlArg.u32 words, sqlArg.bool priv, sqlArg.u32 noteID]] := by
  unfold updateNoteByNoteID
  simp only
  split
  · rfl
  · split <;> rfl

theorem insertTags_hist (drv : sqlDriver) (cursor : cursorObj) (ign : Bool) (names : List String)
    (h : List dbCall) :
    (insertTags drv cursor ign names h).2 =
      h ++ [dbCall.Exec cursor (insertTagsSql ign names) (names.map sqlArg.str)] := by
  unfold insertTags
  simp only
  split
  · rfl
  · split <;> rfl

theorem selectTagsByName_hist (drv : sqlDriver) (cursor : cursorObj) (cl fu : Bool)
    (names : List String) (h : List dbCall) :
    (selectTagsByName drv cursor cl fu names h).2 =
      h ++ [dbCall.Query cursor (selectTagsByNameSql fu names) (names.map sqlArg.str)] := by
  unfold selectTagsByName
  simp only
  split
  · rfl
  · split
    · rfl
    · split <;> rfl

theorem insertNoteTags_hist (drv : sqlDriver) (cursor : cursorObj) (noteID : Nat)
    (tagsIns : List tagObj) (h : List dbCall) :
    (insertNoteTags drv cursor noteID tagsIns h).2 =
      h ++ [dbCall.Exec cursor (insertNoteTagsSql noteID tagsIns)
        (tagsIns.flatMap fun tagIns => [sqlArg.u32 tagIns.ID, sqlArg.str tagIns.Name])] := by
  unfold insertNoteTags
  simp only
  split
  · rfl
  · split <;> rfl

theorem deleteNoteTagsByNoteID_hist (drv : sqlDriver) (cursor : cursorObj) (noteID : Nat)
    (h : List dbCall) :
    (deleteNoteTagsByNoteID drv cursor noteID h).2 =
      h ++ [dbCall.Exec cursor deleteNoteTagsByNoteIDSql [sqlArg.u32 noteID]] := by
  unfold deleteNoteTagsByNoteID
  simp only
  split
  · rfl
  · split <;> rfl

theorem deleteNoteByNoteID_hist (drv : sqlDriver) (cursor : cursorObj) (noteID : Nat)
    (h : List dbCall) :
    (deleteNoteByNoteID drv cursor noteID h).2 =
      h ++ [dbCall.Exec cursor "delete from notebook.note where id = ?" [sqlArg.u32 noteID]] := by
  unfold deleteNoteByNoteID
  simp only
  split
  · rfl
  · split <;> rfl

/-- The history after the body of `publishNote` starts with the insert of the note. -/
theorem publishNoteTx_hist (env : goEnv) (title content : String) (priv : Bool)
    (tagsName : List String) (cursor : cursorObj) (h : List dbCall) :
    ∃ rest, (publishNoteTx env title content priv tagsName cursor h).2 =
      h ++ dbCall.Exec cursor insertNoteSql [sqlArg.str title, sqlArg.str env.cfg.note_default_author,
        sqlArg.str content, sqlArg.str (plainTextAndWords env content).1,
        sqlArg.u32 (plainTextAndWords env content).2, sqlArg.bool priv] :: rest := by
  unfold publishNoteTx
  simp only
  split
  · exact ⟨[], by rw [insertNote_hist]⟩
  · split
    · exact ⟨_, by rw [insertTags_hist, insertNote_hist, List.append_assoc]; rfl⟩
    · split
      · exact ⟨_, by rw [selectTagsByName_hist, insertTags_hist, insertNote_hist]
                     simp only [List.append_assoc]; rfl⟩
      · split
        · exact ⟨_, by rw [insertNoteTags_hist, selectTagsByName_hist, insertTags_hist, insertNote_hist]
                       simp only [List.append_assoc]; rfl⟩
        · exact ⟨_, by rw [insertNoteTags_hist, selectTagsByName_hist, insertTags_hist, insertNote_hist]
                       simp only [List.append_assoc]; rfl⟩

/-- The history after the body of `updateNote` starts with the update of the note. -/
theorem updateNoteTx_hist (env : goEnv) (noteID : Nat) (title content : String) (priv : Bool)
    (tagsName : List String) (cursor : cursorObj) (h : List dbCall) :
    ∃ rest, (updateNoteTx env noteID title content priv tagsName cursor h).2 =
      h ++ dbCall.Exec cursor updateNoteByNoteIDSql [sqlArg.str title, sqlArg.str content,
        sqlArg.str (plainTextAndWords env content).1,
        sqlArg.u32 (plainTextAndWords env content).2, sqlArg.bool priv, sqlArg.u32 noteID] :: rest := by
  unfold updateNoteTx
  simp only
  split
  · exact ⟨[], by rw [updateNoteByNoteID_hist]⟩
  · split
    · exact ⟨_, by rw [deleteNoteTagsByNoteID_hist, updateNoteByNoteID_hist, List.append_assoc]; rfl⟩
    · split
      · exact ⟨_, by rw [insertTags_hist, deleteNoteTagsByNoteID_hist, updateNoteByNoteID_hist]
                     simp only [List.append_assoc]; rfl⟩
      · split
        · exact ⟨_, by rw [selectTagsByName_hist, insertTags_hist, deleteNoteTagsByNoteID_hist,
                         updateNoteByNoteID_hist]
                       simp only [List.append_assoc]; rfl⟩
        · split
          · exact ⟨_, by rw [insertNoteTags_hist, selectTagsByName_hist, insertTags_hist,
                           deleteNoteTagsByNoteID_hist, updateNoteByNoteID_hist]
                         simp only [List.append_assoc]; rfl⟩
          · exact ⟨_, by rw [insertNoteTags_hist, selectTagsByName_hist, insertTags_hist,
                           deleteNoteTagsByNoteID_hist, updateNoteByNoteID_hist]
                         simp only [List.append_assoc]; rfl⟩

/-- When `Begin` succeeds the history after `withTransaction` is `Begin`, then what the
body appends. -/
theorem withTransaction_hist {α : Type} (drv : sqlDriver)
    (tf : cursorObj → List dbCall → (α × goError) × List dbCall) (h : List dbCall)
    (hb : drv.Begin h = none) (c : dbCall) (rest : List dbCall)
    (ht : (tf cursorObj.Tx (h ++ [dbCall.Begin])).2 = (h ++ [dbCall.Begin]) ++ c :: rest) :
    ∃ rest1, (withTransaction drv tf h).2 = h ++ dbCall.Begin :: c :: rest1 := by
  unfold withTransaction
  simp only [hb]
  split
  · exact ⟨rest ++ [dbCall.Rollback], by simp [ht]⟩
  · split
    · exact ⟨rest ++ [dbCall.Commit], by simp [ht]⟩
    · exact ⟨rest ++ [dbCall.Commit], by simp [ht]⟩

theorem publishNote_first_write (env : goEnv) (title content : String) (priv : Bool)
    (tagsName : List String) (w : World) (hb : env.drv.Begin w.DB = none) :
    ∃ rest, (publishNote env title content priv tagsName w).2.DB =
      w.DB ++ dbCall.Begin :: dbCall.Exec cursorObj.Tx insertNoteSql
        [sqlArg.str title, sqlArg.str env.cfg.note_default_author, sqlArg.str content,
          sqlArg.str (plainTextAndWords env content).1,
          sqlArg.u32 (plainTextAndWords env content).2, sqlArg.bool priv] :: rest := by
  obtain ⟨rest, hr⟩ := publishNoteTx_hist env title content priv tagsName cursorObj.Tx
    (w.DB ++ [dbCall.Begin])
  obtain ⟨rest1, hr1⟩ := withTransaction_hist env.drv
    (publishNoteTx env title content priv tagsName) w.DB hb _ rest hr
  refine ⟨rest1, ?_⟩
  unfold publishNote
  simp only
  split <;> exact hr1

theorem updateNote_first_write (env : goEnv) (noteID : Nat) (title content : String) (priv : Bool)
    (tagsName : List String) (w : World) (hb : env.drv.Begin w.DB = none) :
    ∃ rest, (updateNote env noteID title content priv tagsName w).2.DB =
      w.DB ++ dbCall.Begin :: dbCall.Exec cursorObj.Tx updateNoteByNoteIDSql
        [sqlArg.str title, sqlArg.str content, sqlArg.str (plainTextAndWords env content).1,
          sqlArg.u32 (plainTextAndWords env content).2, sqlArg.bool priv, sqlArg.u32 noteID] :: rest := by
  obtain ⟨rest, hr⟩ := updateNoteTx_hist env noteID title content priv tagsName cursorObj.Tx
    (w.DB ++ [dbCall.Begin])
  obtain ⟨rest1, hr1⟩ := withTransaction_hist env.drv
    (updateNoteTx env noteID title content priv tagsName) w.DB hb _ rest hr
  refine ⟨rest1, ?_⟩
  unfold updateNote
  simp only
  split <;> exact hr1

theorem extract_error_text (env : goEnv) (content q err : String)
    (h : extractPlainTextFromHTML env content = (q, some err)) : q = "" := by
  unfold extractPlainTextFromHTML at h
  split at h
  · simp only [Prod.mk.injEq] at h
    exact h.1.symm
  · simp at h

theorem plainTextAndWords_ok (env : goEnv) (content p : String)
    (h : extractPlainTextFromHTML env content = (p, none)) :
    plainTextAndWords env content = (p, p.length % 4294967296) := by
  unfold plainTextAndWords
  rw [h]
  rfl

theorem plainTextAndWords_error (env : goEnv) (content q err : String)
    (h : extractPlainTextFromHTML env content = (q, some err)) :
    plainTextAndWords env content = ("", 0) := by
  have hq := extract_error_text env content q err h
  unfold plainTextAndWords
  rw [h, hq]

theorem plainTextAndWords_withEmptyText (env : goEnv) (content : String) :
    plainTextAndWords (withEmptyText env) content = ("", 0) := by
  rfl

theorem publishNote_congr (env1 env2 : goEnv) (content : String)
    (hc : env1.cfg = env2.cfg) (hd : env1.drv = env2.drv)
    (hp : plainTextAndWords env1 content = plainTextAndWords env2 content)
    (title : String) (priv : Bool) (tagsName : List String) (w : World) :
    publishNote env1 title content priv tagsName w = publishNote env2 title content priv tagsName w := by
  have : publishNoteTx env1 title content priv tagsName = publishNoteTx env2 title content priv tagsName := by
    funext cursor h
    unfold publishNoteTx
    rw [hc, hd, hp]
  unfold publishNote
  rw [this, hd]

theorem updateNote_congr (env1 env2 : goEnv) (content : String)
    (hd : env1.drv = env2.drv)
    (hp : plainTextAndWords env1 content = plainTextAndWords env2 content)
    (noteID : Nat) (title : String) (priv : Bool) (tagsName : List String) (w : World) :
    updateNote env1 noteID title content priv tagsName w =
      updateNote env2 noteID title content priv tagsName w := by
  have : updateNoteTx env1 noteID title content priv tagsName =
      updateNoteTx env2 noteID title content priv tagsName := by
    funext cursor h
    unfold updateNoteTx
    rw [hd, hp]
  unfold updateNote
  rw [this, hd]

theorem fields_replicate (n : Nat) (c : Char) (hc : isSpace c = false) :
    (List.replicate (n + 1) c).foldr fieldsStep ([], false) = ([List.replicate (n + 1) c], true) := by
  induction n with
  | zero => simp [List.replicate, fieldsStep, hc]
  | succ k ih =>
    rw [List.replicate_succ, List.foldr_cons, ih]
    simp [fieldsStep, hc, List.replicate_succ]

theorem extract_replicate (env : goEnv) (content : String) (n : Nat) (c : Char)
    (hc : isSpace c = false)
    (hg : env.goquery content = Except.ok (String.mk (List.replicate (n + 1) c))) :
    extractPlainTextFromHTML env content = (String.mk (List.replicate (n + 1) c), none) := by
  unfold extractPlainTextFromHTML
  rw [hg]
  simp only [stringsFields, fields_replicate n c hc, stringsJoin, List.map, String.intercalate,
    String.intercalate.go]

theorem bigText_length : bigText.length = 4294967296 := by
  unfold bigText
  rw [String.length]
  exact List.length_replicate _ _

theorem bigText_extract : extractPlainTextFromHTML demoEnv bigText = (bigText, none) := by
  have hne : bigText ≠ "<" := by
    intro h
    have hl := congrArg String.length h
    rw [bigText_length] at hl
    exact absurd hl (by decide)
  have hg : demoEnv.goquery bigText = Except.ok bigText := by
    show (if bigText = "<" then Except.error "malformed" else Except.ok bigText) = _
    rw [if_neg hne]
  exact extract_replicate demoEnv bigText 4294967295 (Char.ofNat 97) (by decide) hg

/-- C8 (as stated, refuted). The content is a text of `2^32` runes `a`, which the extractor
returns unchanged; `publishNote` then writes the note with `words = 0`, which is not the
number of runes of the extracted text. -/
theorem write_words_counterexample :
    extractPlainTextFromHTML demoEnv bigText = (bigText, none) ∧
    bigText.length = 4294967296 ∧
    (∃ rest, (publishNote demoEnv "t" bigText false ["go"] startWorld).2.DB =
      dbCall.Begin :: dbCall.Exec cursorObj.Tx insertNoteSql
        [sqlArg.str "t", sqlArg.str "me", sqlArg.str bigText, sqlArg.str bigText, sqlArg.u32 0,
          sqlArg.bool false] :: rest) ∧
    (0 : Nat) ≠ bigText.length := by
  refine ⟨bigText_extract, bigText_length, ?_, by rw [bigText_length]; decide⟩
  obtain ⟨rest, hr⟩ := publishNote_first_write demoEnv "t" bigText false ["go"] startWorld rfl
  rw [plainTextAndWords_ok demoEnv bigText bigText bigText_extract, bigText_length] at hr
  exact ⟨rest, hr⟩

/-- C8 (amended). For every content passed to `publishNote` or `updateNote` whose transaction
begins: when extraction succeeds with the text `p`, the first statement of the transaction
writes the note with `plainText = p` and `words` = the number of runes of `p` reduced modulo
`2^32` (the number of runes itself when `p` has fewer than `2^32` runes); when extraction
fails, it writes the note with `plainText = ""` and `words = 0`, and the call behaves exactly
as if extraction had succeeded with the empty text, so the extraction error is not returned. -/
theorem write_plain_text_words (env : goEnv) (noteID : Nat) (title content : String) (priv : Bool)
    (tagsName : List String) (w : World) (hb : env.drv.Begin w.DB = none) :
    (∀ p, extractPlainTextFromHTML env content = (p, none) →
      (∃ rest, (publishNote env title content priv tagsName w).2.DB =
        w.DB ++ dbCall.Begin :: dbCall.Exec cursorObj.Tx insertNoteSql
          [sqlArg.str title, sqlArg.str env.cfg.note_default_author, sqlArg.str content,
            sqlArg.str p, sqlArg.u32 (p.length % 4294967296), sqlArg.bool priv] :: rest) ∧
      (∃ rest, (updateNote env noteID title content priv tagsName w).2.DB =
        w.DB ++ dbCall.Begin :: dbCall.Exec cursorObj.Tx updateNoteByNoteIDSql
          [sqlArg.str title, sqlArg.str content, sqlArg.str p,
            sqlArg.u32 (p.length % 4294967296), sqlArg.bool priv, sqlArg.u32 noteID] :: rest) ∧
      (p.length < 4294967296 → p.length % 4294967296 = p.length)) ∧
    (∀ q err, extractPlainTextFromHTML env content = (q, some err) →
      (∃ rest, (publishNote env title content priv tagsName w).2.DB =
        w.DB ++ dbCall.Begin :: dbCall.Exec cursorObj.Tx insertNoteSql
          [sqlArg.str title, sqlArg.str env.cfg.note_default_author, sqlArg.str content,
            sqlArg.str "", sqlArg.u32 0, sqlArg.bool priv] :: rest) ∧
      (∃ rest, (updateNote env noteID title content priv tagsName w).2.DB =
        w.DB ++ dbCall.Begin :: dbCall.Exec cursorObj.Tx updateNoteByNoteIDSql
          [sqlArg.str title, sqlArg.str content, sqlArg.str "",
            sqlArg.u32 0, sqlArg.bool priv, sqlArg.u32 noteID] :: rest) ∧
      publishNote env title content priv tagsName w =
        publishNote (withEmptyText env) title content priv tagsName w ∧
      updateNote env noteID title content priv tagsName w =
        updateNote (withEmptyText env) noteID title content priv tagsName w) := by
  constructor
  · intro p hp
    have e := plainTextAndWords_ok env content p hp
    obtain ⟨r1, h1⟩ := publishNote_first_write env title content priv tagsName w hb
    obtain ⟨r2, h2⟩ := updateNote_first_write env noteID title content priv tagsName w hb
    rw [e] at h1 h2
    exact ⟨⟨r1, h1⟩, ⟨r2, h2⟩, fun h => Nat.mod_eq_of_lt h⟩
  · intro q err hq
    have e := plainTextAndWords_error env content q err hq
    obtain ⟨r1, h1⟩ := publishNote_first_write env title content priv tagsName w hb
    obtain ⟨r2, h2⟩ := updateNote_first_write env noteID title content priv tagsName w hb
    rw [e] at h1 h2
    have e2 : plainTextAndWords env content = plainTextAndWords (withEmptyText env) content := by
      rw [e, plainTextAndWords_withEmptyText]
    exact ⟨⟨r1, h1⟩, ⟨r2, h2⟩,
      publishNote_congr env (withEmptyText env) content rfl rfl e2 title priv tagsName w,
      updateNote_congr env (withEmptyText env) content rfl e2 noteID title priv tagsName w⟩

theorem write_plain_text_words_witness :
    (∃ rest, (publishNote demoEnv "t" "a b" false ["go"] startWorld).2.DB =
      startWorld.DB ++ dbCall.Begin :: dbCall.Exec cursorObj.Tx insertNoteSql
        [sqlArg.str "t", sqlArg.str "me", sqlArg.str "a b", sqlArg.str "ab", sqlArg.u32 2,
          sqlArg.bool false] :: rest) ∧
    (∃ rest, (updateNote demoEnv 3 "t" "<" false ["go"] startWorld).2.DB =
      startWorld.DB ++ dbCall.Begin :: dbCall.Exec cursorObj.Tx updateNoteByNoteIDSql
        [sqlArg.str "t", sqlArg.str "<", sqlArg.str "", sqlArg.u32 0, sqlArg.bool false,
          sqlArg.u32 3] :: rest) :=
  ⟨((write_plain_text_words demoEnv 3 "t" "a b" false ["go"] startWorld rfl).1 "ab" (by decide)).1,
   ((write_plain_text_words demoEnv 3 "t" "<" false ["go"] startWorld rfl).2 "" "malformed"
      (by decide)).2.1⟩

/-! ## Reading notes -/

/-- C9. `getNote` fails with the not-found error when the repository returns no note; when it
returns a private note and `isAuth(token)` is false the result is that note with
`Content = ""` and `PlainText = ""` and every other field unchanged; in every other case
(note not private, or token valid) the note is returned exactly as the repository gave it. -/
theorem getNote_spec (env : goEnv) (noteID : Nat) (token : String) (w : World) :
    (∀ h1, selectNoteByNoteID env.drv cursorObj.DB noteID true w.DB = ((none, none), h1) →
      (getNote env noteID token w).1 = (none, some noteNotExistsErr)) ∧
    (∀ n h1, selectNoteByNoteID env.drv cursorObj.DB noteID true w.DB = ((some n, none), h1) →
      n.Private = true → isAuth w.RDS token = false →
      (getNote env noteID token w).1 = (some { n with Content := "", PlainText := "" }, none)) ∧
    (∀ n h1, selectNoteByNoteID env.drv cursorObj.DB noteID true w.DB = ((some n, none), h1) →
      (n.Private = false ∨ isAuth w.RDS token = true) →
      (getNote env noteID token w).1 = (some n, none)) := by
  refine ⟨?_, ?_, ?_⟩
  · intro h1 hs
    simp [getNote, hs]
  · intro n h1 hs hp ha
    simp [getNote, hs, hp, ha, hideNote]
  · intro n h1 hs hor
    rcases hor with hp | ha
    · simp [getNote, hs, hp]
    · simp [getNote, hs, ha]

theorem getNote_spec_witness :
    (getNote demoEnv 2 "" { startWorld with DB := [dbCall.Begin] }).1 =
      (some { ID := 2, Title := "b", Author := "me", Content := "", PlainText := "",
              Private := true, Words := 6, Tags := [⟨0, "", 0⟩], CreatedAt := "2021",
              UpdateAt := "2021" }, none) :=
  (getNote_spec demoEnv 2 "" { startWorld with DB := [dbCall.Begin] }).2.1 _ _
    (by
      show selectNoteByNoteID demoDrv cursorObj.DB 2 true [dbCall.Begin] = _
      rfl) (by decide) (by decide)

theorem cutNote_content (env : goEnv) (n n1 : noteObj) (h : cutNote env n = Except.ok n1) :
    n1.Content = "" := by
  unfold cutNote at h
  simp only at h
  split at h
  · cases h
  · injection h with h
    rw [← h]

theorem cutNote_returns (env : goEnv) (n : noteObj) (h : n.Words ≤ n.PlainText.length) :
    ∃ n1, cutNote env n = Except.ok n1 := by
  unfold cutNote
  simp only
  have hk : (Notebook.min (n.Words : Int) (viperGetUint32 env.cfg.note_digest_length : Int)).toNat
      ≤ n.PlainText.data.length + env.runeSlack n.PlainText.data.length := by
    have hl : n.PlainText.length = n.PlainText.data.length := rfl
    unfold Notebook.min
    split <;> omega
  rw [if_neg (by omega)]
  exact ⟨_, rfl⟩

theorem visitNotes_content (env : goEnv) (isAuthed : Bool) (l ns : List noteObj)
    (h : visitNotes env isAuthed l = Except.ok ns) : ∀ n ∈ ns, n.Content = "" := by
  induction l generalizing ns with
  | nil =>
    unfold visitNotes at h
    injection h with h
    subst h
    intro n hn
    cases hn
  | cons a rest ih =>
    unfold visitNotes at h
    split at h
    · split at h
      · cases h
      · rename_i ns1 hrest
        injection h with h
        subst h
        intro n hn
        rcases List.mem_cons.1 hn with hn | hn
        · rw [hn]; rfl
        · exact ih ns1 hrest n hn
    · split at h
      · cases h
      · rename_i n1 hcut
        split at h
        · cases h
        · rename_i ns1 hrest
          injection h with h
          subst h
          intro n hn
          rcases List.mem_cons.1 hn with hn | hn
          · rw [hn]; exact cutNote_content env a n1 hcut
          · exact ih ns1 hrest n hn

theorem visitNotes_returns (env : goEnv) (isAuthed : Bool) (l : List noteObj)
    (h : ∀ n ∈ l, n.Words ≤ n.PlainText.length) : ∃ ns, visitNotes env isAuthed l = Except.ok ns := by
  induction l with
  | nil => exact ⟨[], by unfold visitNotes; rfl⟩
  | cons a rest ih =>
    obtain ⟨ns1, h1⟩ := ih (fun n hn => h n (List.mem_cons_of_mem _ hn))
    obtain ⟨a1, ha⟩ := cutNote_returns env a (h a (List.mem_cons_self _ _))
    unfold visitNotes
    split
    · exact ⟨_, by rw [h1]⟩
    · exact ⟨_, by rw [ha, h1]⟩

theorem insertAt_perm {α : Type} (x : α) (i : Nat) (l : List α) : (insertAt x i l).Perm (x :: l) := by
  unfold insertAt
  have h := @List.perm_middle _ x (l.take i) (l.drop i)
  rwa [List.take_append_drop] at h

theorem mapRange_perm {α : Type} (seed : List Nat) (l : List α) : (mapRange seed l).Perm l := by
  induction l generalizing seed with
  | nil => unfold mapRange; exact List.Perm.refl _
  | cons x xs ih =>
    unfold mapRange
    exact (insertAt_perm x _ _).trans (List.Perm.cons x (ih seed.tail))

theorem sortNotes_perm (ns : List noteObj) : (sortNotes ns).Perm ns :=
  List.perm_insertionSort _ ns

theorem foldNoteRow_inv (P : noteObj → Prop) (hP : ∀ n tags, P n → P { n with Tags := tags })
    (m : List (Nat × noteObj)) (r : noteSqlObj) (hm : ∀ kv ∈ m, P kv.2) (hr : P (newNote r)) :
    ∀ kv ∈ foldNoteRow m r, P kv.2 := by
  have h1 : ∀ kv ∈ (if (m.lookup r.ID).isNone then m ++ [(r.ID, newNote r)] else m), P kv.2 := by
    intro kv hkv
    split at hkv
    · rcases List.mem_append.1 hkv with h | h
      · exact hm kv h
      · rw [List.mem_singleton.1 h]; exact hr
    · exact hm kv hkv
  unfold foldNoteRow
  simp only
  split
  · intro kv hkv
    obtain ⟨kv0, hkv0, he⟩ := List.mem_map.1 hkv
    rw [← he]
    split
    · exact hP _ _ (h1 kv0 hkv0)
    · exact h1 kv0 hkv0
  · exact h1

theorem scanNotes_inv (P : noteObj → Prop) (hP : ∀ n tags, P n → P { n with Tags := tags })
    (rows : List (Except String noteSqlObj)) (hr : ∀ r, Except.ok r ∈ rows → P (newNote r))
    (m m1 : List (Nat × noteObj)) (hm : ∀ kv ∈ m, P kv.2)
    (h : scanNotes rows m = Except.ok m1) : ∀ kv ∈ m1, P kv.2 := by
  induction rows generalizing m with
  | nil =>
    unfold scanNotes at h
    injection h with h
    rw [← h]; exact hm
  | cons a rest ih =>
    cases a with
    | error e => unfold scanNotes at h; cases h
    | ok r =>
      unfold scanNotes at h
      exact ih (fun r1 h1 => hr r1 (List.mem_cons_of_mem _ h1)) (foldNoteRow m r)
        (foldNoteRow_inv P hP m r hm (hr r (List.mem_cons_self _ _))) h

/-- Every note `selectNotesByTagID` returns satisfies a property of the scanned rows that
does not depend on the tags. -/
theorem selectNotesByTagID_inv (P : noteObj → Prop) (hP : ∀ n tags, P n → P { n with Tags := tags })
    (drv : sqlDriver) (seed : List Nat) (cursor : cursorObj) (pageNo pageSize tagID : Nat)
    (autoSort closeRows : Bool) (h : List dbCall)
    (hr : ∀ h c sql args rows r, drv.QueryNotes h c sql args = Except.ok rows →
      Except.ok r ∈ rows.scanned → P (newNote r)) :
    ∀ n ∈ (selectNotesByTagID drv seed cursor pageNo pageSize tagID autoSort closeRows h).1.1, P n := by
  unfold selectNotesByTagID
  simp only
  split
  · intro n hn; cases hn
  · rename_i rows hq
    split
    · intro n hn; cases hn
    · rename_i m hm
      split
      · intro n hn; cases hn
      · intro n hn
        have hmem : n ∈ (mapRange seed m).map Prod.snd := by
          split at hn
          · exact (sortNotes_perm _).mem_iff.1 hn
          · exact hn
        obtain ⟨kv, hkv, he⟩ := List.mem_map.1 hmem
        rw [← he]
        exact scanNotes_inv P hP rows.scanned (fun r h1 => hr _ _ _ _ rows r hq h1) [] m
          (fun kv h0 => by cases h0) hm kv ((mapRange_perm seed m).mem_iff.1 hkv)

theorem selectNotesByTagID_error (drv : sqlDriver) (seed : List Nat) (cursor : cursorObj)
    (pageNo pageSize tagID : Nat) (autoSort closeRows : Bool) (h : List dbCall) (err : String)
    (he : (selectNotesByTagID drv seed cursor pageNo pageSize tagID autoSort closeRows h).1.2 = some err) :
    (selectNotesByTagID drv seed cursor pageNo pageSize tagID autoSort closeRows h).1.1 = [] := by
  have key : ∀ x, x = selectNotesByTagID drv seed cursor pageNo pageSize tagID autoSort closeRows h →
      x.1.2 = some err → x.1.1 = [] := by
    intro x hx
    unfold selectNotesByTagID at hx
    simp only at hx
    split at hx
    · rw [hx]; intro _; rfl
    · split at hx
      · rw [hx]; intro _; rfl
      · split at hx
        · rw [hx]; intro _; rfl
        · rw [hx]; intro h0; cases h0
  exact key _ rfl he

/-- C10. For every page number, tag filter and token, every note in the list `getNotes`
returns has `Content = ""`; and `getNotes` does return (no panic in `cutNote`) whenever no
row of the database stores more `Words` than its `PlainText` has runes. -/
theorem getNotes_content_empty (env : goEnv) (seed : List Nat) (pageNo tagID : Nat) (token : String)
    (w : World) :
    (∀ notes page err, (getNotes env seed pageNo tagID token w).1 = Except.ok (notes, page, err) →
      ∀ n ∈ notes, n.Content = "") ∧
    ((∀ h c sql args rows r, env.drv.QueryNotes h c sql args = Except.ok rows →
        Except.ok r ∈ rows.scanned → r.Words ≤ r.PlainText.length) →
      ∃ res, (getNotes env seed pageNo tagID token w).1 = Except.ok res) := by
  constructor
  · intro notes page err h
    unfold getNotes at h
    simp only at h
    split at h
    · injection h with h
      simp only [Prod.mk.injEq] at h
      intro n hn
      rw [← h.1] at hn
      cases hn
    · split at h
      · injection h with h
        simp only [Prod.mk.injEq] at h
        intro n hn
        rw [← h.1] at hn
        cases hn
      · split at h
        · rename_i err1 herr
          injection h with h
          simp only [Prod.mk.injEq] at h
          intro n hn
          rw [← h.1, selectNotesByTagID_error _ _ _ _ _ _ _ _ _ err1 herr] at hn
          cases hn
        · split at h
          · cases h
          · rename_i ns hv
            injection h with h
            simp only [Prod.mk.injEq] at h
            rw [← h.1]
            exact visitNotes_content env _ _ ns hv
  · intro hrows
    unfold getNotes
    simp only
    split
    · exact ⟨_, rfl⟩
    · split
      · exact ⟨_, rfl⟩
      · split
        · exact ⟨_, rfl⟩
        · obtain ⟨ns, hns⟩ := visitNotes_returns env
            (isAuth w.RDS token) _
            (selectNotesByTagID_inv (fun n => n.Words ≤ n.PlainText.length) (fun _ _ hn => hn)
              env.drv seed cursorObj.DB _ _ tagID true true _ hrows)
          rw [hns]
          exact ⟨_, rfl⟩

theorem demo_getNotes :
    (getNotes demoEnv [0, 0] 1 0 "" startWorld).1 = Except.ok (demoNotes, ⟨1, 1, 1, 1⟩, none) := by
  decide

theorem getNotes_content_empty_witness : ∀ n ∈ demoNotes, n.Content = "" :=
  (getNotes_content_empty demoEnv [0, 0] 1 0 "" startWorld).1 demoNotes ⟨1, 1, 1, 1⟩ none
    demo_getNotes

/-! ## Digests in the list of notes -/

/-- With a stored word count equal to the number of runes, `cutNote` returns the first
`digestLength` runes of the text followed by zero runes up to `digestLength`. -/
theorem cutNote_plainText (env : goEnv) (n : noteObj) (h : n.Words = n.PlainText.length) :
    cutNote env n = Except.ok { n with
      PlainText := String.mk (n.PlainText.data.take (viperGetUint32 env.cfg.note_digest_length) ++
        List.replicate (viperGetUint32 env.cfg.note_digest_length - n.PlainText.length) (Char.ofNat 0)),
      Content := "" } := by
  have hl : n.PlainText.length = n.PlainText.data.length := rfl
  unfold cutNote
  simp only
  generalize viperGetUint32 env.cfg.note_digest_length = dl
  generalize env.runeSlack n.PlainText.data.length = slack
  have hk : (Notebook.min (n.Words : Int) (dl : Int)).toNat = Min.min n.PlainText.data.length dl := by
    unfold Notebook.min
    split <;> omega
  rw [hk, if_neg (by omega)]
  congr 2
  have ht : (n.PlainText.data ++ List.replicate
      (n.PlainText.data.length + slack - n.PlainText.data.length) (Char.ofNat 0)).take
      (Min.min n.PlainText.data.length dl) = n.PlainText.data.take dl := by
    rw [List.take_append_of_le_length (by omega)]
    rcases Nat.le_total n.PlainText.data.length dl with hle | hle
    · rw [Nat.min_eq_left hle, List.take_of_length_le (le_refl _), List.take_of_length_le hle]
    · rw [Nat.min_eq_right hle]
  rw [ht]
  unfold goCopy
  rw [List.length_replicate, List.drop_replicate, List.length_take, hl]
  rw [List.take_take, Nat.min_self]
  have e : dl - Min.min dl n.PlainText.data.length = dl - n.PlainText.data.length := by omega
  rw [e]

/-- Each fetched note gets exactly one of the two transformations of `listView`. -/
theorem visitNotes_map (env : goEnv) (isAuthed : Bool) (l : List noteObj)
    (h : ∀ n ∈ l, n.Words = n.PlainText.length) :
    visitNotes env isAuthed l = Except.ok (l.map (listView env isAuthed)) := by
  induction l with
  | nil => unfold visitNotes; rfl
  | cons a rest ih =>
    have ih1 := ih (fun n hn => h n (List.mem_cons_of_mem _ hn))
    have ha := cutNote_plainText env a (h a (List.mem_cons_self _ _))
    unfold visitNotes
    by_cases hc : (a.Private && !isAuthed) = true
    · simp only [hc, if_true, ih1, List.map_cons, listView, hideNote]
    · simp only [hc, if_false, ih1, ha, List.map_cons, listView, Bool.false_eq_true]

/-- C11 (failing input). Digest length 8, no token; the stored note 1 is public with the plain
text `hello` and `Words = 5`, its number of runes. The claim asks for `PlainText = hello` in
the list; `getNotes` returns it with the eight runes `hello` followed by three zero runes. -/
theorem getNotes_digest_padding :
    (getNotes digestEnv [0, 0] 1 0 "" startWorld).1 = Except.ok (paddedNotes, ⟨1, 1, 1, 1⟩, none) ∧
    digestOf 8 "hello" = "hello" ∧
    paddedNote.PlainText ≠ digestOf 8 "hello" ∧
    paddedNote.PlainText.length = 8 ∧
    paddedNote.PlainText.data = "hello".data ++ List.replicate 3 (Char.ofNat 0) := by
  decide

/-! ## Transactions -/

theorem txStateOf_append (h l : List dbCall) :
    txStateOf (h ++ l) = l.foldl txStep (txStateOf h) := by
  unfold txStateOf
  rw [List.foldl_append]

theorem txStep_body (a p : List dbCall) (c : dbCall) (hc : isBodyCall c = true) :
    ∃ p1, txStep { applied := a, pending := some p } c = { applied := a, pending := some p1 } := by
  cases c with
  | Begin => cases hc
  | Commit => cases hc
  | Rollback => cases hc
  | Exec cursor sql args =>
    cases cursor with
    | DB => cases hc
    | Tx => exact ⟨_, rfl⟩
  | Query cursor sql args => exact ⟨p, rfl⟩
  | QueryRow cursor sql args => exact ⟨p, rfl⟩

theorem txFold_body (calls : List dbCall) (hc : ∀ c ∈ calls, isBodyCall c = true)
    (a p : List dbCall) :
    ∃ p1, calls.foldl txStep { applied := a, pending := some p } = { applied := a, pending := some p1 } := by
  induction calls generalizing p with
  | nil => exact ⟨p, rfl⟩
  | cons c rest ih =>
    obtain ⟨p1, h1⟩ := txStep_body a p c (hc c (List.mem_cons_self _ _))
    rw [List.foldl_cons, h1]
    exact ih (fun c1 h => hc c1 (List.mem_cons_of_mem _ h)) p1

/-- A transaction that is begun, runs body calls and is rolled back leaves the statements
that have taken effect as they were. -/
theorem txStateOf_rolled_back (h calls : List dbCall) (hc : ∀ c ∈ calls, isBodyCall c = true) :
    (txStateOf ((h ++ [dbCall.Begin] ++ calls) ++ [dbCall.Rollback])).applied = (txStateOf h).applied := by
  rw [txStateOf_append, txStateOf_append, txStateOf_append]
  obtain ⟨p1, h1⟩ := txFold_body calls hc (txStateOf h).applied []
  have hb : [dbCall.Begin].foldl txStep (txStateOf h) =
      { applied := (txStateOf h).applied, pending := some [] } := rfl
  rw [hb, h1]
  rfl

theorem txStateOf_begin (h : List dbCall) :
    (txStateOf (h ++ [dbCall.Begin])).applied = (txStateOf h).applied := by
  rw [txStateOf_append]
  rfl

theorem withTransaction_begin_error {α : Type} (drv : sqlDriver)
    (tf : cursorObj → List dbCall → (α × goError) × List dbCall) (h : List dbCall) (e : String)
    (hb : drv.Begin h = some e) :
    withTransaction drv tf h = ((none, some e), h ++ [dbCall.Begin]) := by
  unfold withTransaction
  simp only [hb]

theorem withTransaction_body_error {α : Type} (drv : sqlDriver)
    (tf : cursorObj → List dbCall → (α × goError) × List dbCall) (h : List dbCall) (e : String)
    (hb : drv.Begin h = none) (ht : (tf cursorObj.Tx (h ++ [dbCall.Begin])).1.2 = some e) :
    withTransaction drv tf h =
      ((none, some e), (tf cursorObj.Tx (h ++ [dbCall.Begin])).2 ++ [dbCall.Rollback]) := by
  unfold withTransaction
  simp only [hb, ht]

theorem withTransaction_commit_error {α : Type} (drv : sqlDriver)
    (tf : cursorObj → List dbCall → (α × goError) × List dbCall) (h : List dbCall) (e : String)
    (hb : drv.Begin h = none) (ht : (tf cursorObj.Tx (h ++ [dbCall.Begin])).1.2 = none)
    (hc : drv.Commit (tf cursorObj.Tx (h ++ [dbCall.Begin])).2 = some e) :
    withTransaction drv tf h =
      ((none, some e), (tf cursorObj.Tx (h ++ [dbCall.Begin])).2 ++ [dbCall.Commit]) := by
  unfold withTransaction
  simp only [hb, ht, hc]

theorem withTransaction_ok {α : Type} (drv : sqlDriver)
    (tf : cursorObj → List dbCall → (α × goError) × List dbCall) (h : List dbCall)
    (hb : drv.Begin h = none) (ht : (tf cursorObj.Tx (h ++ [dbCall.Begin])).1.2 = none)
    (hc : drv.Commit (tf cursorObj.Tx (h ++ [dbCall.Begin])).2 = none) :
    withTransaction drv tf h =
      ((some (tf cursorObj.Tx (h ++ [dbCall.Begin])).1.1, none),
        (tf cursorObj.Tx (h ++ [dbCall.Begin])).2 ++ [dbCall.Commit]) := by
  unfold withTransaction
  simp only [hb, ht, hc]

/-- When `Begin` fails or the body returns an error, `withTransaction` returns an error and
no statement of the body takes effect. -/
theorem withTransaction_unchanged {α : Type} (drv : sqlDriver)
    (tf : cursorObj → List dbCall → (α × goError) × List dbCall) (hw : txBody tf) (h : List dbCall)
    (hf : drv.Begin h ≠ none ∨ (tf cursorObj.Tx (h ++ [dbCall.Begin])).1.2 ≠ none) :
    (withTransaction drv tf h).1.1 = none ∧ (withTransaction drv tf h).1.2 ≠ none ∧
    (txStateOf (withTransaction drv tf h).2).applied = (txStateOf h).applied := by
  cases hb : drv.Begin h with
  | some e =>
    rw [withTransaction_begin_error drv tf h e hb]
    exact ⟨rfl, by simp, txStateOf_begin h⟩
  | none =>
    cases ht : (tf cursorObj.Tx (h ++ [dbCall.Begin])).1.2 with
    | none =>
      rcases hf with hf | hf
      · exact absurd hb hf
      · exact absurd ht hf
    | some e =>
      rw [withTransaction_body_error drv tf h e hb ht]
      obtain ⟨calls, hcalls, hbody⟩ := hw (h ++ [dbCall.Begin])
      refine ⟨rfl, by simp, ?_⟩
      simp only [hcalls]
      exact txStateOf_rolled_back h calls hbody

theorem body_nil (h : List dbCall) : ∃ calls, h = h ++ calls ∧ ∀ c ∈ calls, isBodyCall c = true :=
  ⟨[], by simp, fun c hc => by cases hc⟩

theorem body_snoc (h h1 : List dbCall) (c : dbCall) (hc : isBodyCall c = true)
    (hh : ∃ calls, h1 = h ++ calls ∧ ∀ c ∈ calls, isBodyCall c = true) :
    ∃ calls, h1 ++ [c] = h ++ calls ∧ ∀ c ∈ calls, isBodyCall c = true := by
  obtain ⟨calls, e, hb⟩ := hh
  refine ⟨calls ++ [c], by rw [e, List.append_assoc], ?_⟩
  intro c1 h1
  rcases List.mem_append.1 h1 with h2 | h2
  · exact hb c1 h2
  · rw [List.mem_singleton.1 h2]; exact hc

theorem publishNoteTx_body (env : goEnv) (title content : String) (priv : Bool)
    (tagsName : List String) : txBody (publishNoteTx env title content priv tagsName) := by
  intro h
  unfold publishNoteTx
  simp only
  have s1 := body_snoc h _ _ (rfl : isBodyCall (dbCall.Exec cursorObj.Tx insertNoteSql
    [sqlArg.str title, sqlArg.str env.cfg.note_default_author, sqlArg.str content,
      sqlArg.str (plainTextAndWords env content).1, sqlArg.u32 (plainTextAndWords env content).2,
      sqlArg.bool priv]) = true) (body_nil h)
  have s2 := body_snoc h _ _ (rfl : isBodyCall (dbCall.Exec cursorObj.Tx
    (insertTagsSql true tagsName) (tagsName.map sqlArg.str)) = true) s1
  have s3 := body_snoc h _ _ (rfl : isBodyCall (dbCall.Query cursorObj.Tx
    (selectTagsByNameSql true tagsName) (tagsName.map sqlArg.str)) = true) s2
  split
  · rw [insertNote_hist]; exact s1
  · split
    · rw [insertTags_hist, insertNote_hist]; exact s2
    · split
      · rw [selectTagsByName_hist, insertTags_hist, insertNote_hist]; exact s3
      · split
        · rw [insertNoteTags_hist, selectTagsByName_hist, insertTags_hist, insertNote_hist]
          exact body_snoc h _ _ rfl s3
        · rw [insertNoteTags_hist, selectTagsByName_hist, insertTags_hist, insertNote_hist]
          exact body_snoc h _ _ rfl s3

theorem updateNoteTx_body (env : goEnv) (noteID : Nat) (title content : String) (priv : Bool)
    (tagsName : List String) : txBody (updateNoteTx env noteID title content priv tagsName) := by
  intro h
  unfold updateNoteTx
  simp only
  have s1 := body_snoc h _ _ (rfl : isBodyCall (dbCall.Exec cursorObj.Tx updateNoteByNoteIDSql
    [sqlArg.str title, sqlArg.str content, sqlArg.str (plainTextAndWords env content).1,
      sqlArg.u32 (plainTextAndWords env content).2, sqlArg.bool priv, sqlArg.u32 noteID]) = true)
    (body_nil h)
  have s2 := body_snoc h _ _ (rfl : isBodyCall (dbCall.Exec cursorObj.Tx
    deleteNoteTagsByNoteIDSql [sqlArg.u32 noteID]) = true) s1
  have s3 := body_snoc h _ _ (rfl : isBodyCall (dbCall.Exec cursorObj.Tx
    (insertTagsSql true tagsName) (tagsName.map sqlArg.str)) = true) s2
  have s4 := body_snoc h _ _ (rfl : isBodyCall (dbCall.Query cursorObj.Tx
    (selectTagsByNameSql true tagsName) (tagsName.map sqlArg.str)) = true) s3
  split
  · rw [updateNoteByNoteID_hist]; exact s1
  · split
    · rw [deleteNoteTagsByNoteID_hist, updateNoteByNoteID_hist]; exact s2
    · split
      · rw [insertTags_hist, deleteNoteTagsByNoteID_hist, updateNoteByNoteID_hist]; exact s3
      · split
        · rw [selectTagsByName_hist, insertTags_hist, deleteNoteTagsByNoteID_hist,
            updateNoteByNoteID_hist]
          exact s4
        · split
          · rw [insertNoteTags_hist, selectTagsByName_hist, insertTags_hist,
              deleteNoteTagsByNoteID_hist, updateNoteByNoteID_hist]
            exact body_snoc h _ _ rfl s4
          · rw [insertNoteTags_hist, selectTagsByName_hist, insertTags_hist,
              deleteNoteTagsByNoteID_hist, updateNoteByNoteID_hist]
            exact body_snoc h _ _ rfl s4

theorem deleteNoteTx_body (env : goEnv) (noteID : Nat) : txBody (deleteNoteTx env noteID) := by
  intro h
  unfold deleteNoteTx
  simp only
  have s1 := body_snoc h _ _ (rfl : isBodyCall (dbCall.Exec cursorObj.Tx
    "delete from notebook.note where id = ?" [sqlArg.u32 noteID]) = true) (body_nil h)
  split
  · rw [deleteNoteByNoteID_hist]; exact s1
  · split
    · rw [deleteNoteByNoteID_hist]; exact s1
    · split
      · rw [deleteNoteTagsByNoteID_hist, deleteNoteByNoteID_hist]
        exact body_snoc h _ _ rfl s1
      · rw [deleteNoteTagsByNoteID_hist, deleteNoteByNoteID_hist]
        exact body_snoc h _ _ rfl s1

theorem publishNote_fst (env : goEnv) (title content : String) (priv : Bool)
    (tagsName : List String) (w : World) :
    (publishNote env title content priv tagsName w).1.2 =
      (withTransaction env.drv (publishNoteTx env title content priv tagsName) w.DB).1.2 ∧
    (publishNote env title content priv tagsName w).2.DB =
      (withTransaction env.drv (publishNoteTx env title content priv tagsName) w.DB).2 := by
  unfold publishNote
  simp only
  split
  · rename_i hr; rw [hr]; exact ⟨rfl, rfl⟩
  · rename_i hr; rw [hr]; exact ⟨rfl, rfl⟩
  · rename_i hr; rw [hr]; exact ⟨rfl, rfl⟩

theorem updateNote_fst (env : goEnv) (noteID : Nat) (title content : String) (priv : Bool)
    (tagsName : List String) (w : World) :
    (updateNote env noteID title content priv tagsName w).1 =
      (withTransaction env.drv (updateNoteTx env noteID title content priv tagsName) w.DB).1.2 ∧
    (updateNote env noteID title content priv tagsName w).2.DB =
      (withTransaction env.drv (updateNoteTx env noteID title content priv tagsName) w.DB).2 := by
  unfold updateNote
  simp only
  split
  · rename_i hr; rw [hr]; exact ⟨rfl, rfl⟩
  · rename_i hr; rw [hr]; exact ⟨rfl, rfl⟩

theorem deleteNote_fst (env : goEnv) (noteID : Nat) (w : World) :
    (deleteNote env noteID w).1 = (withTransaction env.drv (deleteNoteTx env noteID) w.DB).1.2 ∧
    (deleteNote env noteID w).2.DB = (withTransaction env.drv (deleteNoteTx env noteID) w.DB).2 := by
  unfold deleteNote
  simp only
  split
  · rename_i hr; rw [hr]; exact ⟨rfl, rfl⟩
  · rename_i hr; rw [hr]; exact ⟨rfl, rfl⟩

theorem publishNoteTx_step_error (env : goEnv) (title content : String) (priv : Bool)
    (tagsName : List String) (h : List dbCall)
    (hs : ∃ e ∈ publishStepErrors env title content priv tagsName h, e ≠ none) :
    (publishNoteTx env title content priv tagsName cursorObj.Tx h).1.2 ≠ none := by
  unfold publishStepErrors at hs
  simp only [List.mem_cons, List.mem_singleton, List.not_mem_nil, or_false, exists_eq_or_imp,
    exists_eq_left] at hs
  unfold publishNoteTx
  simp only
  split
  · simp
  · split
    · simp
    · split
      · simp
      · split
        · simp
        · simp_all

theorem updateNoteTx_step_error (env : goEnv) (noteID : Nat) (title content : String)
    (priv : Bool) (tagsName : List String) (h : List dbCall)
    (hs : ∃ e ∈ updateStepErrors env noteID title content priv tagsName h, e ≠ none) :
    (updateNoteTx env noteID title content priv tagsName cursorObj.Tx h).1.2 ≠ none := by
  unfold updateStepErrors at hs
  simp only [List.mem_cons, List.mem_singleton, List.not_mem_nil, or_false, exists_eq_or_imp,
    exists_eq_left] at hs
  unfold updateNoteTx
  simp only
  split
  · simp
  · split
    · simp
    · split
      · simp
      · split
        · simp
        · split
          · simp
          · simp_all

theorem deleteNoteTx_step_error (env : goEnv) (noteID : Nat) (h : List dbCall)
    (hs : ∃ e ∈ deleteStepErrors env noteID h, e ≠ none) :
    (deleteNoteTx env noteID cursorObj.Tx h).1.2 ≠ none := by
  unfold deleteStepErrors at hs
  simp only [List.mem_cons, List.mem_singleton, List.not_mem_nil, or_false, exists_eq_or_imp,
    exists_eq_left] at hs
  unfold deleteNoteTx
  simp only
  split
  · simp
  · split
    · simp
    · split
      · simp
      · simp_all

theorem publishNote_failed (env : goEnv) (title content : String) (priv : Bool)
    (tagsName : List String) (w : World)
    (hf : env.drv.Begin w.DB ≠ none ∨
      (publishNoteTx env title content priv tagsName cursorObj.Tx (w.DB ++ [dbCall.Begin])).1.2 ≠ none) :
    (publishNote env title content priv tagsName w).1.2 ≠ none ∧
    (txStateOf (publishNote env title content priv tagsName w).2.DB).applied =
      (txStateOf w.DB).applied ∧
    (publishNote env title content priv tagsName w).2.sweeps = w.sweeps ∧
    (publishNote env title content priv tagsName w).2.RDS = w.RDS := by
  obtain ⟨_, h2, h3⟩ := withTransaction_unchanged env.drv
    (publishNoteTx env title content priv tagsName)
    (publishNoteTx_body env title content priv tagsName) w.DB hf
  obtain ⟨e1, e2⟩ := publishNote_fst env title content priv tagsName w
  rw [e1, e2]
  refine ⟨h2, h3, ?_, ?_⟩
  · unfold publishNote
    simp only
    split <;> rfl
  · unfold publishNote
    simp only
    split <;> rfl

theorem updateNote_failed (env : goEnv) (noteID : Nat) (title content : String) (priv : Bool)
    (tagsName : List String) (w : World)
    (hf : env.drv.Begin w.DB ≠ none ∨
      (updateNoteTx env noteID title content priv tagsName cursorObj.Tx
        (w.DB ++ [dbCall.Begin])).1.2 ≠ none) :
    (updateNote env noteID title content priv tagsName w).1 ≠ none ∧
    (txStateOf (updateNote env noteID title content priv tagsName w).2.DB).applied =
      (txStateOf w.DB).applied ∧
    (updateNote env noteID title content priv tagsName w).2.sweeps = w.sweeps ∧
    (updateNote env noteID title content priv tagsName w).2.RDS = w.RDS := by
  obtain ⟨_, h2, h3⟩ := withTransaction_unchanged env.drv
    (updateNoteTx env noteID title content priv tagsName)
    (updateNoteTx_body env noteID title content priv tagsName) w.DB hf
  obtain ⟨e1, e2⟩ := updateNote_fst env noteID title content priv tagsName w
  rw [e1, e2]
  refine ⟨h2, h3, ?_, ?_⟩
  · unfold updateNote
    simp only
    split
    · rfl
    · rename_i hnone
      exact absurd hnone h2
  · unfold updateNote
    simp only
    split <;> rfl

theorem deleteNote_failed (env : goEnv) (noteID : Nat) (w : World)
    (hf : env.drv.Begin w.DB ≠ none ∨
      (deleteNoteTx env noteID cursorObj.Tx (w.DB ++ [dbCall.Begin])).1.2 ≠ none) :
    (deleteNote env noteID w).1 ≠ none ∧
    (txStateOf (deleteNote env noteID w).2.DB).applied = (txStateOf w.DB).applied ∧
    (deleteNote env noteID w).2.sweeps = w.sweeps ∧
    (deleteNote env noteID w).2.RDS = w.RDS := by
  obtain ⟨_, h2, h3⟩ := withTransaction_unchanged env.drv (deleteNoteTx env noteID)
    (deleteNoteTx_body env noteID) w.DB hf
  obtain ⟨e1, e2⟩ := deleteNote_fst env noteID w
  rw [e1, e2]
  refine ⟨h2, h3, ?_, ?_⟩
  · unfold deleteNote
    simp only
    split
    · rfl
    · rename_i hnone
      exact absurd hnone h2
  · unfold deleteNote
    simp only
    split <;> rfl

/-- C13. For every transaction body `tf`, once `Begin` has succeeded `withTransaction` sends
`Commit` after the calls of `tf` if and only if `tf` returns no error, and sends `Rollback`
whenever `tf` returns an error; it returns a nil result and a non-nil error whenever
`Begin`, `tf` or `Commit` fails, and the result of `tf` without error when all three
succeed. So when `Begin` fails or any repository step of `publishNote`, `updateNote` or
`deleteNote` returns an error (or the body returns an error of its own), the call returns
an error, the statements that have taken effect in the store are the same as before the
call, no sweep is scheduled and the cache is untouched. -/
theorem withTransaction_spec :
    (∀ (α : Type) (drv : sqlDriver) (tf : cursorObj → List dbCall → (α × goError) × List dbCall)
      (h : List dbCall), drv.Begin h = none →
      ((withTransaction drv tf h).2 = (tf cursorObj.Tx (h ++ [dbCall.Begin])).2 ++ [dbCall.Commit] ↔
        (tf cursorObj.Tx (h ++ [dbCall.Begin])).1.2 = none) ∧
      ((tf cursorObj.Tx (h ++ [dbCall.Begin])).1.2 ≠ none →
        (withTransaction drv tf h).2 =
          (tf cursorObj.Tx (h ++ [dbCall.Begin])).2 ++ [dbCall.Rollback])) ∧
    (∀ (α : Type) (drv : sqlDriver) (tf : cursorObj → List dbCall → (α × goError) × List dbCall)
      (h : List dbCall),
      (drv.Begin h ≠ none ∨ (tf cursorObj.Tx (h ++ [dbCall.Begin])).1.2 ≠ none ∨
        drv.Commit (tf cursorObj.Tx (h ++ [dbCall.Begin])).2 ≠ none) →
      (withTransaction drv tf h).1.1 = none ∧ (withTransaction drv tf h).1.2 ≠ none) ∧
    (∀ (α : Type) (drv : sqlDriver) (tf : cursorObj → List dbCall → (α × goError) × List dbCall)
      (h : List dbCall), drv.Begin h = none →
      (tf cursorObj.Tx (h ++ [dbCall.Begin])).1.2 = none →
      drv.Commit (tf cursorObj.Tx (h ++ [dbCall.Begin])).2 = none →
      (withTransaction drv tf h).1 = (some (tf cursorObj.Tx (h ++ [dbCall.Begin])).1.1, none)) ∧
    (∀ (env : goEnv) (title content : String) (priv : Bool) (tagsName : List String) (w : World),
      (env.drv.Begin w.DB ≠ none ∨
        (∃ e ∈ publishStepErrors env title content priv tagsName (w.DB ++ [dbCall.Begin]), e ≠ none) ∨
        (publishNoteTx env title content priv tagsName cursorObj.Tx (w.DB ++ [dbCall.Begin])).1.2 ≠ none) →
      (publishNote env title content priv tagsName w).1.2 ≠ none ∧
      (txStateOf (publishNote env title content priv tagsName w).2.DB).applied =
        (txStateOf w.DB).applied ∧
      (publishNote env title content priv tagsName w).2.sweeps = w.sweeps ∧
      (publishNote env title content priv tagsName w).2.RDS = w.RDS) ∧
    (∀ (env : goEnv) (noteID : Nat) (title content : String) (priv : Bool) (tagsName : List String)
      (w : World),
      (env.drv.Begin w.DB ≠ none ∨
        (∃ e ∈ updateStepErrors env noteID title content priv tagsName (w.DB ++ [dbCall.Begin]),
          e ≠ none) ∨
        (updateNoteTx env noteID title content priv tagsName cursorObj.Tx
          (w.DB ++ [dbCall.Begin])).1.2 ≠ none) →
      (updateNote env noteID title content priv tagsName w).1 ≠ none ∧
      (txStateOf (updateNote env noteID title content priv tagsName w).2.DB).applied =
        (txStateOf w.DB).applied ∧
      (updateNote env noteID title content priv tagsName w).2.sweeps = w.sweeps ∧
      (updateNote env noteID title content priv tagsName w).2.RDS = w.RDS) ∧
    (∀ (env : goEnv) (noteID : Nat) (w : World),
      (env.drv.Begin w.DB ≠ none ∨
        (∃ e ∈ deleteStepErrors env noteID (w.DB ++ [dbCall.Begin]), e ≠ none) ∨
        (deleteNoteTx env noteID cursorObj.Tx (w.DB ++ [dbCall.Begin])).1.2 ≠ none) →
      (deleteNote env noteID w).1 ≠ none ∧
      (txStateOf (deleteNote env noteID w).2.DB).applied = (txStateOf w.DB).applied ∧
      (deleteNote env noteID w).2.sweeps = w.sweeps ∧
      (deleteNote env noteID w).2.RDS = w.RDS) := by
  refine ⟨?_, ?_, ?_, ?_, ?_, ?_⟩
  · intro α drv tf h hb
    constructor
    · constructor
      · intro hh
        cases ht : (tf cursorObj.Tx (h ++ [dbCall.Begin])).1.2 with
        | none => rfl
        | some e =>
          rw [withTransaction_body_error drv tf h e hb ht] at hh
          have := List.append_cancel_left hh
          cases this
      · intro ht
        cases hc : drv.Commit (tf cursorObj.Tx (h ++ [dbCall.Begin])).2 with
        | none => rw [withTransaction_ok drv tf h hb ht hc]
        | some e => rw [withTransaction_commit_error drv tf h e hb ht hc]
    · intro ht
      cases ht1 : (tf cursorObj.Tx (h ++ [dbCall.Begin])).1.2 with
      | none => exact absurd ht1 ht
      | some e => rw [withTransaction_body_error drv tf h e hb ht1]
  · intro α drv tf h hf
    cases hb : drv.Begin h with
    | some e =>
      rw [withTransaction_begin_error drv tf h e hb]
      exact ⟨rfl, by simp⟩
    | none =>
      cases ht : (tf cursorObj.Tx (h ++ [dbCall.Begin])).1.2 with
      | some e =>
        rw [withTransaction_body_error drv tf h e hb ht]
        exact ⟨rfl, by simp⟩
      | none =>
        cases hc : drv.Commit (tf cursorObj.Tx (h ++ [dbCall.Begin])).2 with
        | some e =>
          rw [withTransaction_commit_error drv tf h e hb ht hc]
          exact ⟨rfl, by simp⟩
        | none =>
          rcases hf with hf | hf | hf
          · exact absurd hb hf
          · exact absurd ht hf
          · exact absurd hc hf
  · intro α drv tf h hb ht hc
    rw [withTransaction_ok drv tf h hb ht hc]
  · intro env title content priv tagsName w hf
    apply publishNote_failed
    rcases hf with hf | hf | hf
    · exact Or.inl hf
    · exact Or.inr (publishNoteTx_step_error env title content priv tagsName _ hf)
    · exact Or.inr hf
  · intro env noteID title content priv tagsName w hf
    apply updateNote_failed
    rcases hf with hf | hf | hf
    · exact Or.inl hf
    · exact Or.inr (updateNoteTx_step_error env noteID title content priv tagsName _ hf)
    · exact Or.inr hf
  · intro env noteID w hf
    apply deleteNote_failed
    rcases hf with hf | hf | hf
    · exact Or.inl hf
    · exact Or.inr (deleteNoteTx_step_error env noteID _ hf)
    · exact Or.inr hf

theorem withTransaction_spec_witness :
    ((publishNote failingInsertEnv "t" "a b" false ["go"] startWorld).1.2 ≠ none ∧
      (txStateOf (publishNote failingInsertEnv "t" "a b" false ["go"] startWorld).2.DB).applied =
        (txStateOf startWorld.DB).applied ∧
      (publishNote failingInsertEnv "t" "a b" false ["go"] startWorld).2.sweeps = startWorld.sweeps ∧
      (publishNote failingInsertEnv "t" "a b" false ["go"] startWorld).2.RDS = startWorld.RDS) ∧
    ((updateNote failingThirdEnv 3 "t" "a b" false ["go"] startWorld).1 ≠ none ∧
      (txStateOf (updateNote failingThirdEnv 3 "t" "a b" false ["go"] startWorld).2.DB).applied =
        (txStateOf startWorld.DB).applied ∧
      (updateNote failingThirdEnv 3 "t" "a b" false ["go"] startWorld).2.sweeps = startWorld.sweeps ∧
      (updateNote failingThirdEnv 3 "t" "a b" false ["go"] startWorld).2.RDS = startWorld.RDS) ∧
    ((deleteNote failingThirdEnv 3 startWorld).1 ≠ none ∧
      (txStateOf (deleteNote failingThirdEnv 3 startWorld).2.DB).applied =
        (txStateOf startWorld.DB).applied ∧
      (deleteNote failingThirdEnv 3 startWorld).2.sweeps = startWorld.sweeps ∧
      (deleteNote failingThirdEnv 3 startWorld).2.RDS = startWorld.RDS) :=
  ⟨withTransaction_spec.2.2.2.1 failingInsertEnv "t" "a b" false ["go"] startWorld
      (Or.inr (Or.inl ⟨some "lock wait timeout", by decide, by decide⟩)),
   withTransaction_spec.2.2.2.2.1 failingThirdEnv 3 "t" "a b" false ["go"] startWorld
      (Or.inr (Or.inl ⟨some "deadlock", by decide, by decide⟩)),
   withTransaction_spec.2.2.2.2.2 failingThirdEnv 3 startWorld
      (Or.inr (Or.inl ⟨some "deadlock", by decide, by decide⟩))⟩

/-! ## Deleting and updating a note -/

/-- When the delete of the note row reports zero rows, `deleteNote` returns the not-found
error after `Begin`, the delete of the row and `Rollback`, and starts no goroutine. -/
theorem deleteNote_not_found (env : goEnv) (noteID : Nat) (w : World) (h1 : List dbCall)
    (hb : env.drv.Begin w.DB = none)
    (hd : deleteNoteByNoteID env.drv cursorObj.Tx noteID (w.DB ++ [dbCall.Begin]) = ((0, none), h1)) :
    deleteNote env noteID w = (some noteNotExistsErr, { w with DB := w.DB ++ [dbCall.Begin,
      dbCall.Exec cursorObj.Tx "delete from notebook.note where id = ?" [sqlArg.u32 noteID],
      dbCall.Rollback] }) := by
  have hh := deleteNoteByNoteID_hist env.drv cursorObj.Tx noteID (w.DB ++ [dbCall.Begin])
  rw [hd] at hh
  simp only at hh
  have ht : deleteNoteTx env noteID cursorObj.Tx (w.DB ++ [dbCall.Begin]) =
      ((0, some noteNotExistsErr), h1) := by
    unfold deleteNoteTx
    simp [hd]
  have hw := withTransaction_body_error env.drv (deleteNoteTx env noteID) w.DB noteNotExistsErr hb
    (by rw [ht])
  unfold deleteNote
  rw [hw, ht, hh]
  simp

/-- C12. For every note id whose transaction begins: when the delete of the note row affects
zero rows, `deleteNote` returns the not-found error, the transaction is rolled back (the
calls are `Begin`, the delete of the row, `Rollback`; nothing takes effect in the store),
the associations are not deleted and no sweep is scheduled; when it affects at least one
row and the delete of the associations and `Commit` succeed, `deleteNote` returns no error,
has sent both deletes and `Commit`, and schedules one sweep. -/
theorem deleteNote_spec (env : goEnv) (noteID : Nat) (w : World)
    (hb : env.drv.Begin w.DB = none) :
    (∀ h1, deleteNoteByNoteID env.drv cursorObj.Tx noteID (w.DB ++ [dbCall.Begin]) = ((0, none), h1) →
      (deleteNote env noteID w).1 = some noteNotExistsErr ∧
      (deleteNote env noteID w).2.DB = w.DB ++ [dbCall.Begin,
        dbCall.Exec cursorObj.Tx "delete from notebook.note where id = ?" [sqlArg.u32 noteID],
        dbCall.Rollback] ∧
      dbCall.Exec cursorObj.Tx deleteNoteTagsByNoteIDSql [sqlArg.u32 noteID] ∉
        [dbCall.Begin,
          dbCall.Exec cursorObj.Tx "delete from notebook.note where id = ?" [sqlArg.u32 noteID],
          dbCall.Rollback] ∧
      (txStateOf (deleteNote env noteID w).2.DB).applied = (txStateOf w.DB).applied ∧
      (deleteNote env noteID w).2.sweeps = w.sweeps) ∧
    (∀ n m h1 h2, 0 < n →
      deleteNoteByNoteID env.drv cursorObj.Tx noteID (w.DB ++ [dbCall.Begin]) = ((n, none), h1) →
      deleteNoteTagsByNoteID env.drv cursorObj.Tx noteID h1 = ((m, none), h2) →
      env.drv.Commit h2 = none →
      (deleteNote env noteID w).1 = none ∧
      (deleteNote env noteID w).2.DB = w.DB ++ [dbCall.Begin,
        dbCall.Exec cursorObj.Tx "delete from notebook.note where id = ?" [sqlArg.u32 noteID],
        dbCall.Exec cursorObj.Tx deleteNoteTagsByNoteIDSql [sqlArg.u32 noteID],
        dbCall.Commit] ∧
      (deleteNote env noteID w).2.sweeps = w.sweeps + 1) := by
  constructor
  · intro h1 hd
    rw [deleteNote_not_found env noteID w h1 hb hd]
    refine ⟨rfl, rfl, ?_, ?_, rfl⟩
    · intro hm
      simp [deleteNoteTagsByNoteIDSql] at hm
    · have e : w.DB ++ [dbCall.Begin,
          dbCall.Exec cursorObj.Tx "delete from notebook.note where id = ?" [sqlArg.u32 noteID],
          dbCall.Rollback] = (w.DB ++ [dbCall.Begin] ++
          [dbCall.Exec cursorObj.Tx "delete from notebook.note where id = ?" [sqlArg.u32 noteID]]) ++
          [dbCall.Rollback] := by simp
      show (txStateOf (w.DB ++ [dbCall.Begin,
          dbCall.Exec cursorObj.Tx "delete from notebook.note where id = ?" [sqlArg.u32 noteID],
          dbCall.Rollback])).applied = _
      rw [e]
      exact txStateOf_rolled_back w.DB
        [dbCall.Exec cursorObj.Tx "delete from notebook.note where id = ?" [sqlArg.u32 noteID]]
        (fun c hc => by rw [List.mem_singleton.1 hc]; rfl)
  · intro n m h1 h2 hn hd hdt hc
    have hh1 := deleteNoteByNoteID_hist env.drv cursorObj.Tx noteID (w.DB ++ [dbCall.Begin])
    rw [hd] at hh1
    simp only at hh1
    have hh2 := deleteNoteTagsByNoteID_hist env.drv cursorObj.Tx noteID h1
    rw [hdt] at hh2
    simp only at hh2
    have ht : deleteNoteTx env noteID cursorObj.Tx (w.DB ++ [dbCall.Begin]) = ((n, none), h2) := by
      unfold deleteNoteTx
      simp only [hd, hdt]
      rw [if_neg (by omega)]
    have hw := withTransaction_ok env.drv (deleteNoteTx env noteID) w.DB hb (by rw [ht])
      (by rw [ht]; exact hc)
    unfold deleteNote
    rw [hw, ht, hh2, hh1]
    simp

theorem deleteNote_spec_witness :
    (deleteNote noRowEnv 3 startWorld).1 = some noteNotExistsErr ∧
    (deleteNote noRowEnv 3 startWorld).2.sweeps = 0 ∧
    (deleteNote demoEnv 3 startWorld).1 = none ∧
    (deleteNote demoEnv 3 startWorld).2.sweeps = 1 :=
  ⟨((deleteNote_spec noRowEnv 3 startWorld rfl).1 _ rfl).1,
   ((deleteNote_spec noRowEnv 3 startWorld rfl).1 _ rfl).2.2.2.2,
   ((deleteNote_spec demoEnv 3 startWorld rfl).2 1 1 _ _ (by decide) rfl rfl rfl).1,
   ((deleteNote_spec demoEnv 3 startWorld rfl).2 1 1 _ _ (by decide) rfl rfl rfl).2.2⟩

theorem scanNote_some (rs : List noteSqlObj) (n : noteObj) :
    scanNote (rs.map Except.ok) (some n) = (some { n with Tags := n.Tags ++ rs.map rowTag }, none) := by
  induction rs generalizing n with
  | nil => simp [scanNote]
  | cons r rest ih =>
    rw [List.map_cons, scanNote, ih]
    simp

/-- On rows that all scan, `selectNoteByNoteID` folds to nothing for no row and else to the
note of the first row with one tag per row, whether or not the row carries a tag. -/
theorem scanNote_rows (rs : List noteSqlObj) :
    scanNote (rs.map Except.ok) none = (foldedNote rs, none) := by
  cases rs with
  | nil => rfl
  | cons r rest =>
    rw [List.map_cons, scanNote, scanNote_some]
    simp [newNote, foldedNote]

theorem selectNoteByNoteID_rows (drv : sqlDriver) (cursor : cursorObj) (noteID : Nat)
    (closeRows : Bool) (h : List dbCall) (rs : List noteSqlObj)
    (hq : drv.QueryNotes h cursor selectNoteByNoteIDSql [sqlArg.u32 noteID] =
      Except.ok { scanned := rs.map Except.ok, Err := none }) :
    (selectNoteByNoteID drv cursor noteID closeRows h).1 = (foldedNote rs, none) := by
  unfold selectNoteByNoteID
  simp only [hq, scanNote_rows]

/-- C14 (failing input). The note 2 has no tag, so the outer join returns for it the single
row `untaggedRow` with null tag columns. The claim asks for an empty `Tags` list;
`selectNoteByNoteID` returns the note with the one tag `(ID 0, Name "")`. -/
theorem selectNoteByNoteID_null_tag :
    demoDrv.QueryNotes [] cursorObj.DB selectNoteByNoteIDSql [sqlArg.u32 2] =
      Except.ok { scanned := [Except.ok untaggedRow], Err := none } ∧
    untaggedRow.TagID.Valid = false ∧ untaggedRow.TagName.Valid = false ∧
    (selectNoteByNoteID demoDrv cursorObj.DB 2 true []).1 =
      (some { newNote untaggedRow with Tags := [⟨0, "", 0⟩] }, none) ∧
    ({ newNote untaggedRow with Tags := [⟨0, "", 0⟩] } : noteObj).Tags ≠ [] := by
  refine ⟨rfl, rfl, rfl, ?_, by decide⟩
  decide

/-! ## A failing page query -/

theorem selectNotesByTagID_query_error (drv : sqlDriver) (seed : List Nat) (cursor : cursorObj)
    (pageNo pageSize tagID : Nat) (autoSort closeRows : Bool) (h : List dbCall) (e : String)
    (hq : ∀ sql args, drv.QueryNotes h cursor sql args = Except.error e) :
    (selectNotesByTagID drv seed cursor pageNo pageSize tagID autoSort closeRows h).1 = ([], none) := by
  unfold selectNotesByTagID
  simp only [hq]

/-- C16 (failing input). The count query reports two notes and the page query fails with
`invalid connection`. The claim asks for a non-nil error; `selectNotesByTagID` returns the
empty list with a nil error, and `getNotes` returns the empty list, the page
`(1, 1, 1, 1)` and a nil error. -/
theorem getNotes_swallows_query_error :
    (∀ h cursor sql args,
      failingQueryDrv.QueryNotes h cursor sql args = Except.error "invalid connection") ∧
    (selectNotesByTagID failingQueryDrv [] cursorObj.DB 1 10 0 true true []).1 = ([], none) ∧
    (getNotes failingQueryEnv [] 1 0 "" startWorld).1 = Except.ok ([], ⟨1, 1, 1, 1⟩, none) := by
  refine ⟨fun _ _ _ _ => rfl, ?_, ?_⟩
  · exact selectNotesByTagID_query_error failingQueryDrv [] cursorObj.DB 1 10 0 true true []
      "invalid connection" (fun _ _ => rfl)
  · decide

/-! ## The row offset of the page query -/

theorem selectNotesByTagID_hist (drv : sqlDriver) (seed : List Nat) (cursor : cursorObj)
    (pageNo pageSize tagID : Nat) (autoSort closeRows : Bool) (h : List dbCall) :
    (selectNotesByTagID drv seed cursor pageNo pageSize tagID autoSort closeRows h).2 =
      h ++ [dbCall.Query cursor (pageQuerySql tagID autoSort) (pageQueryArgs pageNo pageSize tagID)] := by
  unfold selectNotesByTagID pageQuerySql pageQueryArgs pageOffset
  simp only
  split
  · rfl
  · split
    · rfl
    · split <;> rfl

theorem selectNotesCountByTagID_lt (drv : sqlDriver) (cursor : cursorObj) (tagID : Nat)
    (h h1 : List dbCall) (cnt : Nat)
    (hc : selectNotesCountByTagID drv cursor tagID h = ((cnt, none), h1)) : cnt < 4294967296 := by
  unfold selectNotesCountByTagID at hc
  simp only at hc
  split at hc
  · simp at hc
  · split at hc
    · simp only [Prod.mk.injEq, and_true] at hc
      omega
    · simp at hc

/-- A page with `Total > 0` comes from valid arguments, and its `Cur` and `Total` are the
converted page number and page count, whatever the window size. -/
theorem calcPage_nonzero (winSize curPage pageSize totalCount : Int)
    (hS : totalCount + pageSize - 1 < 9223372036854775808)
    (ht : 0 < (calcPage winSize curPage pageSize totalCount).Total) :
    0 < pageSize ∧ 0 < curPage ∧ 0 < totalCount ∧ curPage ≤ totalPages totalCount pageSize ∧
    (calcPage winSize curPage pageSize totalCount).Cur = toUint32 curPage ∧
    (calcPage winSize curPage pageSize totalCount).Total = toUint32 (totalPages totalCount pageSize) := by
  by_cases h0 : pageSize ≤ 0 ∨ curPage ≤ 0 ∨ totalCount ≤ 0
  · unfold calcPage at ht
    rw [if_pos h0] at ht
    cases ht
  · have hps : 0 < pageSize := by omega
    have htc : 0 < totalCount := by omega
    have hcp : 0 < curPage := by omega
    have hcode := codeTotalPage_exact hps htc hS
    unfold codeTotalPage at hcode
    by_cases h1 : curPage > totalPages totalCount pageSize
    · unfold calcPage at ht
      rw [if_neg h0] at ht
      simp only [hcode] at ht
      rw [if_pos h1] at ht
      cases ht
    · refine ⟨hps, hcp, htc, by omega, ?_, ?_⟩
      · unfold calcPage
        rw [if_neg h0]
        simp only [hcode]
        rw [if_neg h1]
        split
        · rfl
        · split <;> rfl
      · unfold calcPage
        rw [if_neg h0]
        simp only [hcode]
        rw [if_neg h1]
        split
        · rfl
        · split <;> rfl

theorem totalPages_pred_mul_lt {ps tc : Int} (hps : 0 < ps) :
    (totalPages tc ps - 1) * ps < tc := by
  rw [totalPages_eq_ediv tc ps hps]
  have h1 : (tc + ps - 1) / ps * ps ≤ tc + ps - 1 := Int.ediv_mul_le _ (ne_of_gt hps)
  nlinarith

/-- For `uint32` arguments and a page with `Total > 0`: `Cur` is the page number, the
offset is computed without wrapping and lies below the note count. -/
theorem pageOffset_lt (winSize : Int) (pageNo pageSize notesCount : Nat)
    (hp : pageNo < 4294967296) (hs : pageSize < 4294967296) (hn : notesCount < 4294967296)
    (ht : 0 < (calcPage winSize (pageNo : Int) (pageSize : Int) (notesCount : Int)).Total) :
    (calcPage winSize (pageNo : Int) (pageSize : Int) (notesCount : Int)).Cur = pageNo ∧
    pageOffset pageNo pageSize = (pageNo - 1) * pageSize ∧
    (pageNo - 1) * pageSize < notesCount := by
  obtain ⟨hps, hcp, htc, hle, hcur, _⟩ := calcPage_nonzero winSize pageNo pageSize notesCount
    (by omega) ht
  have hlt := @totalPages_pred_mul_lt (pageSize : Int) (notesCount : Int) hps
  have h1 : ((pageNo : Int) - 1) * pageSize ≤ (totalPages notesCount pageSize - 1) * pageSize :=
    Int.mul_le_mul_of_nonneg_right (by omega) (le_of_lt hps)
  have h2 : (((pageNo - 1 : Nat) : Int)) = (pageNo : Int) - 1 := by omega
  have h3 : (pageNo - 1) * pageSize < notesCount := by
    have : (((pageNo - 1) * pageSize : Nat) : Int) < notesCount := by
      rw [Nat.cast_mul, h2]
      omega
    exact_mod_cast this
  refine ⟨?_, ?_, h3⟩
  · rw [hcur]
    unfold toUint32
    omega
  · unfold pageOffset wrapU32
    have e : (pageNo + 4294967296 - 1) % 4294967296 = pageNo - 1 := by omega
    rw [e]
    exact Nat.mod_eq_of_lt (by omega)

/-- C18. For every `uint32` page number, page size and note count and every window size, when
`calcPage(pageNo, pageSize, notesCount)` returns a page with `Total > 0`, the row offset
`(Cur - 1) * pageSize` is computed in `uint32` without wrapping and is strictly less than
`notesCount`; and this offset is the one in the page query `getNotes` sends after a count
query that returned `notesCount`. -/
theorem getNotes_offset :
    (∀ (winSize : Int) (pageNo pageSize notesCount : Nat),
      pageNo < 4294967296 → pageSize < 4294967296 → notesCount < 4294967296 →
      0 < (calcPage winSize (pageNo : Int) (pageSize : Int) (notesCount : Int)).Total →
      pageOffset (calcPage winSize (pageNo : Int) (pageSize : Int) (notesCount : Int)).Cur pageSize =
        ((calcPage winSize (pageNo : Int) (pageSize : Int) (notesCount : Int)).Cur - 1) * pageSize ∧
      ((calcPage winSize (pageNo : Int) (pageSize : Int) (notesCount : Int)).Cur - 1) * pageSize
        < notesCount) ∧
    (∀ (env : goEnv) (seed : List Nat) (pageNo tagID : Nat) (token : String) (w : World)
      (notesCount : Nat) (h1 : List dbCall),
      pageNo < 4294967296 →
      selectNotesCountByTagID env.drv cursorObj.DB tagID w.DB = ((notesCount, none), h1) →
      0 < (calcPage (viperGetInt env.cfg.pagination_win_size) (pageNo : Int)
        (viperGetUint32 env.cfg.pagination_page_size : Int) (notesCount : Int)).Total →
      (getNotes env seed pageNo tagID token w).2.DB =
        h1 ++ [dbCall.Query cursorObj.DB (pageQuerySql tagID true)
          (pageQueryArgs pageNo (viperGetUint32 env.cfg.pagination_page_size) tagID)] ∧
      pageOffset pageNo (viperGetUint32 env.cfg.pagination_page_size) =
        (pageNo - 1) * viperGetUint32 env.cfg.pagination_page_size ∧
      (pageNo - 1) * viperGetUint32 env.cfg.pagination_page_size < notesCount) := by
  constructor
  · intro winSize pageNo pageSize notesCount hp hs hn ht
    obtain ⟨e1, e2, e3⟩ := pageOffset_lt winSize pageNo pageSize notesCount hp hs hn ht
    rw [e1]
    exact ⟨e2, e3⟩
  · intro env seed pageNo tagID token w notesCount h1 hp hc ht
    have hn := selectNotesCountByTagID_lt env.drv cursorObj.DB tagID w.DB h1 notesCount hc
    have hs : viperGetUint32 env.cfg.pagination_page_size < 4294967296 := by
      unfold viperGetUint32 wrapU32; omega
    obtain ⟨e1, e2, e3⟩ := pageOffset_lt (viperGetInt env.cfg.pagination_win_size) pageNo
      (viperGetUint32 env.cfg.pagination_page_size) notesCount hp hs hn ht
    refine ⟨?_, e2, e3⟩
    have hh := selectNotesByTagID_hist env.drv seed cursorObj.DB pageNo
      (viperGetUint32 env.cfg.pagination_page_size) tagID true true h1
    unfold getNotes
    simp only [hc]
    rw [if_neg (by omega), e1]
    split
    · exact hh
    · split
      · exact hh
      · exact hh

theorem getNotes_offset_witness :
    pageOffset (calcPage 5 ((2 : Nat) : Int) ((10 : Nat) : Int) ((15 : Nat) : Int)).Cur 10 =
      ((calcPage 5 ((2 : Nat) : Int) ((10 : Nat) : Int) ((15 : Nat) : Int)).Cur - 1) * 10 ∧
    ((calcPage 5 ((2 : Nat) : Int) ((10 : Nat) : Int) ((15 : Nat) : Int)).Cur - 1) * 10 < 15 :=
  getNotes_offset.1 5 2 10 15 (by decide) (by decide) (by decide) (by decide)

/-! ## Folding the rows of a page -/

theorem notesLess_iff (a b : noteObj) : notesLess a b = true ↔ b.UpdateAt < a.UpdateAt := by
  unfold notesLess
  rw [decide_eq_true_iff, String.lt_iff_toList_lt]
  rfl

theorem sortNotes_sorted (ns : List noteObj) :
    List.Sorted (fun a b => b.UpdateAt ≤ a.UpdateAt) (sortNotes ns) := by
  have hr : ∀ a b : noteObj, (notesLess b a = false) ↔ b.UpdateAt ≤ a.UpdateAt := by
    intro a b
    rw [← Bool.not_eq_true, notesLess_iff, not_lt]
  haveI : IsTotal noteObj (fun a b => notesLess b a = false) :=
    ⟨fun a b => by rw [hr, hr]; exact le_total _ _⟩
  haveI : IsTrans noteObj (fun a b => notesLess b a = false) :=
    ⟨fun a b c h1 h2 => by rw [hr] at *; exact le_trans h2 h1⟩
  have hs := List.sorted_insertionSort (fun a b : noteObj => notesLess b a = false) ns
  exact List.Pairwise.imp (fun {a b} h => (hr a b).1 h) hs

theorem scanNotes_ok (rs : List noteSqlObj) (m : List (Nat × noteObj)) :
    scanNotes (rs.map Except.ok) m = Except.ok (rs.foldl foldNoteRow m) := by
  induction rs generalizing m with
  | nil => rfl
  | cons r rest ih => rw [List.map_cons, scanNotes, ih, List.foldl_cons]

theorem tagsOf_snoc (pre : List noteSqlObj) (r : noteSqlObj) (id : Nat) :
    tagsOf (pre ++ [r]) id =
      tagsOf pre id ++ (if (r.ID == id && r.TagID.Valid) = true then [rowTag r] else []) := by
  unfold tagsOf
  rw [List.filter_append, List.map_append]
  congr 1
  by_cases h : (r.ID == id && r.TagID.Valid) = true
  · simp [List.filter, h]
  · simp [List.filter, h]

theorem lookup_isNone_iff (m : List (Nat × noteObj)) (k : Nat) :
    (m.lookup k).isNone = true ↔ k ∉ m.map Prod.fst := by
  rw [Option.isNone_iff_eq_none, List.lookup_eq_none_iff]
  constructor
  · intro h hk
    obtain ⟨p, hp, e⟩ := List.mem_map.1 hk
    have := h p hp
    rw [e] at this
    simp at this
  · intro h p hp
    have : k ≠ p.1 := fun e => h (List.mem_map.2 ⟨p, hp, e.symm⟩)
    simpa using this

theorem find_none_of_not_mem (pre : List noteSqlObj) (id : Nat)
    (h : ¬ ∃ r ∈ pre, r.ID = id) : pre.find? (fun x => x.ID == id) = none := by
  rw [List.find?_eq_none]
  intro x hx hid
  exact h ⟨x, hx, by simpa using hid⟩

theorem tagsOf_nil_of_not_mem (pre : List noteSqlObj) (id : Nat)
    (h : ¬ ∃ r ∈ pre, r.ID = id) : tagsOf pre id = [] := by
  unfold tagsOf
  rw [List.map_eq_nil_iff, List.filter_eq_nil_iff]
  intro x hx hid
  rw [Bool.and_eq_true] at hid
  exact h ⟨x, hx, by simpa using hid.1⟩

theorem aggregate_snoc_old (pre : List noteSqlObj) (r : noteSqlObj) (id : Nat) (n : noteObj)
    (h : aggregate pre id = some n) :
    aggregate (pre ++ [r]) id = some { n with Tags := n.Tags ++
      (if (r.ID == id && r.TagID.Valid) = true then [rowTag r] else []) } := by
  unfold aggregate at h ⊢
  obtain ⟨r0, h0, e⟩ := Option.map_eq_some'.1 h
  rw [List.find?_append, h0, tagsOf_snoc, ← e]
  rfl

theorem aggregate_snoc_new (pre : List noteSqlObj) (r : noteSqlObj)
    (h : ¬ ∃ r1 ∈ pre, r1.ID = r.ID) :
    aggregate (pre ++ [r]) r.ID = some { newNote r with Tags :=
      (if r.TagID.Valid = true then [rowTag r] else []) } := by
  unfold aggregate
  rw [List.find?_append, find_none_of_not_mem pre r.ID h, tagsOf_snoc,
    tagsOf_nil_of_not_mem pre r.ID h]
  simp

theorem foldInv_step (pre : List noteSqlObj) (m : List (Nat × noteObj)) (r : noteSqlObj)
    (hinv : foldInv pre m) : foldInv (pre ++ [r]) (foldNoteRow m r) := by
  obtain ⟨hnd, hmem, hagg⟩ := hinv
  -- the map after the insertion of a new key
  have hJ : ∀ m1, m1 = (if (m.lookup r.ID).isNone then m ++ [(r.ID, newNote r)] else m) →
      (m1.map Prod.fst).Nodup ∧
      (∀ id, id ∈ m1.map Prod.fst ↔ ∃ r1 ∈ pre ++ [r], r1.ID = id) ∧
      (∀ kv ∈ m1, aggregate (pre ++ [r]) kv.1 = some { kv.2 with Tags := kv.2.Tags ++
        (if (r.ID == kv.1 && r.TagID.Valid) = true then [rowTag r] else []) }) := by
    intro m1 hm1
    by_cases hk : (m.lookup r.ID).isNone = true
    · rw [if_pos hk] at hm1
      have hnot := (lookup_isNone_iff m r.ID).1 hk
      have hnone : ¬ ∃ r1 ∈ pre, r1.ID = r.ID := fun hex => hnot ((hmem r.ID).2 hex)
      rw [hm1]
      refine ⟨?_, ?_, ?_⟩
      · rw [List.map_append, List.nodup_append]
        refine ⟨hnd, List.nodup_singleton _, ?_⟩
        intro a ha hb
        rw [List.map_singleton, List.mem_singleton] at hb
        have hb1 : a = r.ID := hb
        rw [hb1] at ha
        exact hnot ha
      · intro id
        rw [List.map_append, List.mem_append, hmem id]
        constructor
        · rintro (⟨r1, h1, e⟩ | h1)
          · exact ⟨r1, List.mem_append_left _ h1, e⟩
          · rw [List.map_singleton, List.mem_singleton] at h1
            exact ⟨r, List.mem_append_right _ (List.mem_singleton_self r), h1.symm⟩
        · rintro ⟨r1, h1, e⟩
          rcases List.mem_append.1 h1 with h2 | h2
          · exact Or.inl ⟨r1, h2, e⟩
          · rw [List.mem_singleton.1 h2] at e
            exact Or.inr (by rw [List.map_singleton, List.mem_singleton]; exact e.symm)
      · intro kv hkv
        rcases List.mem_append.1 hkv with h1 | h1
        · exact aggregate_snoc_old pre r kv.1 kv.2 (hagg kv h1)
        · rw [List.mem_singleton.1 h1, aggregate_snoc_new pre r hnone]
          simp [newNote]
    · rw [if_neg hk] at hm1
      rw [hm1]
      have hin : r.ID ∈ m.map Prod.fst := by
        by_contra hc
        exact hk ((lookup_isNone_iff m r.ID).2 hc)
      refine ⟨hnd, ?_, ?_⟩
      · intro id
        rw [hmem id]
        constructor
        · rintro ⟨r1, h1, e⟩
          exact ⟨r1, List.mem_append_left _ h1, e⟩
        · rintro ⟨r1, h1, e⟩
          rcases List.mem_append.1 h1 with h2 | h2
          · exact ⟨r1, h2, e⟩
          · rw [List.mem_singleton.1 h2] at e
            rw [← e]
            exact (hmem r.ID).1 hin
      · intro kv hkv
        exact aggregate_snoc_old pre r kv.1 kv.2 (hagg kv hkv)
  obtain ⟨j1, j2, j3⟩ := hJ _ rfl
  unfold foldNoteRow
  simp only
  by_cases hv : r.TagID.Valid = true
  · rw [if_pos hv]
    have hfst : ∀ l : List (Nat × noteObj), (l.map fun kv =>
        if kv.1 = r.ID then (kv.1, { kv.2 with Tags := kv.2.Tags ++ [rowTag r] }) else kv).map Prod.fst
        = l.map Prod.fst := by
      intro l
      rw [List.map_map]
      apply List.map_congr_left
      intro kv _
      simp only [Function.comp]
      split <;> rfl
    refine ⟨by rw [hfst]; exact j1, fun id => by rw [hfst]; exact j2 id, ?_⟩
    intro kv1 hkv1
    obtain ⟨kv, hkv, e⟩ := List.mem_map.1 hkv1
    have hj := j3 kv hkv
    by_cases hid : kv.1 = r.ID
    · rw [if_pos hid] at e
      rw [← e]
      simp only
      rw [hj]
      simp [hid, hv]
    · rw [if_neg hid] at e
      rw [← e, hj]
      have : (r.ID == kv.1) = false := by simpa using fun h => hid h.symm
      simp [this]
  · rw [if_neg hv]
    refine ⟨j1, j2, ?_⟩
    intro kv hkv
    rw [j3 kv hkv]
    simp [hv]

theorem foldInv_foldl (rs pre : List noteSqlObj) (m : List (Nat × noteObj)) (hinv : foldInv pre m) :
    foldInv (pre ++ rs) (rs.foldl foldNoteRow m) := by
  induction rs generalizing pre m with
  | nil => rw [List.append_nil]; exact hinv
  | cons r rest ih =>
    rw [List.foldl_cons]
    have := ih (pre ++ [r]) (foldNoteRow m r) (foldInv_step pre m r hinv)
    rwa [List.append_assoc] at this

theorem foldInv_nil : foldInv [] [] :=
  ⟨List.nodup_nil, fun id => by simp, fun kv hkv => by cases hkv⟩

theorem aggregate_some (rs : List noteSqlObj) (id : Nat) (n : noteObj)
    (h : aggregate rs id = some n) : n.ID = id ∧ n.Tags = tagsOf rs id := by
  unfold aggregate at h
  obtain ⟨r0, h0, e⟩ := Option.map_eq_some'.1 h
  have hid := List.find?_some h0
  rw [← e]
  exact ⟨by simpa [newNote] using hid, rfl⟩

theorem map_snd_eq_filterMap (rs : List noteSqlObj) (m : List (Nat × noteObj))
    (h : ∀ kv ∈ m, aggregate rs kv.1 = some kv.2) :
    m.map Prod.snd = (m.map Prod.fst).filterMap (aggregate rs) := by
  induction m with
  | nil => rfl
  | cons kv rest ih =>
    rw [List.map_cons, List.map_cons, List.filterMap_cons, h kv (List.mem_cons_self _ _),
      ih (fun kv1 h1 => h kv1 (List.mem_cons_of_mem _ h1))]

theorem map_ID_eq_fst (rs : List noteSqlObj) (m : List (Nat × noteObj))
    (h : ∀ kv ∈ m, aggregate rs kv.1 = some kv.2) :
    (m.map Prod.snd).map (fun n => n.ID) = m.map Prod.fst := by
  rw [List.map_map]
  apply List.map_congr_left
  intro kv hkv
  exact (aggregate_some rs kv.1 kv.2 (h kv hkv)).1

theorem selectNotesByTagID_rows (drv : sqlDriver) (seed : List Nat) (cursor : cursorObj)
    (pageNo pageSize tagID : Nat) (autoSort closeRows : Bool) (h : List dbCall)
    (rs : List noteSqlObj)
    (hq : drv.QueryNotes h cursor (pageQuerySql tagID autoSort) (pageQueryArgs pageNo pageSize tagID) =
      Except.ok { scanned := rs.map Except.ok, Err := none }) :
    (selectNotesByTagID drv seed cursor pageNo pageSize tagID autoSort closeRows h).1 =
      (if autoSort = true then sortNotes ((mapRange seed (rs.foldl foldNoteRow [])).map Prod.snd)
        else (mapRange seed (rs.foldl foldNoteRow [])).map Prod.snd, none) := by
  unfold pageQuerySql pageQueryArgs pageOffset at hq
  unfold selectNotesByTagID
  simp only [hq, scanNotes_ok]

/-- C15. For every list of joined rows the page query returns, `selectNotesByTagID` returns
without error a permutation of the aggregates of the distinct note ids of the rows: exactly
one note per note id occurring in the rows, each holding the tags of the rows of that id
that carry a tag, in row order; and when `autoSort` is set the list is ordered by
`UpdateAt` non-increasing. -/
theorem selectNotesByTagID_fold (drv : sqlDriver) (seed : List Nat) (cursor : cursorObj)
    (pageNo pageSize tagID : Nat) (autoSort closeRows : Bool) (h : List dbCall)
    (rs : List noteSqlObj)
    (hq : drv.QueryNotes h cursor (pageQuerySql tagID autoSort) (pageQueryArgs pageNo pageSize tagID) =
      Except.ok { scanned := rs.map Except.ok, Err := none }) :
    (selectNotesByTagID drv seed cursor pageNo pageSize tagID autoSort closeRows h).1.2 = none ∧
    (selectNotesByTagID drv seed cursor pageNo pageSize tagID autoSort closeRows h).1.1.Perm
      ((noteIDs rs).filterMap (aggregate rs)) ∧
    ((selectNotesByTagID drv seed cursor pageNo pageSize tagID autoSort closeRows h).1.1.map
      fun n => n.ID).Nodup ∧
    (∀ id, id ∈ (selectNotesByTagID drv seed cursor pageNo pageSize tagID autoSort closeRows h).1.1.map
      (fun n => n.ID) ↔ ∃ r ∈ rs, r.ID = id) ∧
    (∀ n ∈ (selectNotesByTagID drv seed cursor pageNo pageSize tagID autoSort closeRows h).1.1,
      n.Tags = tagsOf rs n.ID) ∧
    (autoSort = true → List.Sorted (fun a b => b.UpdateAt ≤ a.UpdateAt)
      (selectNotesByTagID drv seed cursor pageNo pageSize tagID autoSort closeRows h).1.1) := by
  rw [selectNotesByTagID_rows drv seed cursor pageNo pageSize tagID autoSort closeRows h rs hq]
  obtain ⟨hnd, hmem, hagg⟩ := foldInv_foldl rs [] [] foldInv_nil
  rw [List.nil_append] at hmem hagg
  generalize rs.foldl foldNoteRow [] = m at hnd hmem hagg
  -- the returned list is a permutation of the values of the map
  have hperm : (if autoSort = true then sortNotes ((mapRange seed m).map Prod.snd)
      else (mapRange seed m).map Prod.snd).Perm (m.map Prod.snd) := by
    have hp := (mapRange_perm seed m).map Prod.snd
    split
    · exact (sortNotes_perm _).trans hp
    · exact hp
  have hids : (m.map Prod.fst).Perm (noteIDs rs) := by
    unfold noteIDs
    rw [List.perm_ext_iff_of_nodup hnd (List.nodup_dedup _)]
    intro id
    rw [hmem id, List.mem_dedup, List.mem_map]
  refine ⟨rfl, ?_, ?_, ?_, ?_, ?_⟩
  · refine hperm.trans ?_
    rw [map_snd_eq_filterMap rs m hagg]
    exact hids.filterMap _
  · have := (hperm.map fun n => n.ID).nodup_iff.2 (by rw [map_ID_eq_fst rs m hagg]; exact hnd)
    exact this
  · intro id
    rw [(hperm.map fun n => n.ID).mem_iff, map_ID_eq_fst rs m hagg]
    exact hmem id
  · intro n hn
    obtain ⟨kv, hkv, e⟩ := List.mem_map.1 (hperm.mem_iff.1 hn)
    obtain ⟨e1, e2⟩ := aggregate_some rs kv.1 kv.2 (hagg kv hkv)
    rw [← e, e2, e1]
  · intro ha
    simp only [ha, if_true]
    exact sortNotes_sorted _

theorem selectNotesByTagID_fold_witness :
    ((selectNotesByTagID demoDrv [0, 0] cursorObj.DB 1 10 0 true true []).1.1.map
      fun n => n.ID).Nodup ∧
    List.Sorted (fun a b : noteObj => b.UpdateAt ≤ a.UpdateAt)
      (selectNotesByTagID demoDrv [0, 0] cursorObj.DB 1 10 0 true true []).1.1 :=
  ⟨(selectNotesByTagID_fold demoDrv [0, 0] cursorObj.DB 1 10 0 true true []
      [demoRow1, untaggedRow, demoRow3] rfl).2.2.1,
   (selectNotesByTagID_fold demoDrv [0, 0] cursorObj.DB 1 10 0 true true []
      [demoRow1, untaggedRow, demoRow3] rfl).2.2.2.2.2 rfl⟩

end Notebook
